import Mathlib

/-!
Verification of the tdscan numeric core (src/python/utils.py,
src/python/points_cloud.py, src/python/objectives.py) against its
natural-language specification.

The Python source computes with IEEE-754 doubles.  We embed those numbers as
the type `Fl α`: a value of a linear ordered field `α` (`Fl.fin`), or one of
the special values `nan`, `inf` (+infinity) and `ninf` (-infinity).  The
arithmetic operations below implement the IEEE rules for these special
values (nan propagates; `inf + ninf = nan`; `0 * inf = nan`; `x / 0` is
`nan` for `x = 0` and a signed infinity otherwise; every comparison with
`nan` is false).  Finite arithmetic is exact field arithmetic: rounding is
idealized away, which is the usual shallow-embedding convention; claims in
the specification carry tolerances for it.  Signed zero is not modelled
(the field has a single 0, treated as +0 where a sign matters).

Trig-free code from utils.py is embedded generically over `α` (so it is
executable at `α = ℚ`); the reconstruction pipeline of points_cloud.py
uses `np.tan`, `np.sqrt`, `scipy Rotation` etc. and is embedded at `α = ℝ`.
-/

set_option maxHeartbeats 4000000

namespace Tdscan

/-- IEEE-style extension of an ordered field with nan and signed infinities. -/
inductive Fl (α : Type) where
  | nan : Fl α
  | inf : Fl α
  | ninf : Fl α
  | fin : α → Fl α
deriving DecidableEq

variable {α : Type} [LinearOrderedField α]

/-- IEEE addition. -/
def Fl.add : Fl α → Fl α → Fl α
  | nan, _ => nan
  | _, nan => nan
  | inf, ninf => nan
  | ninf, inf => nan
  | inf, _ => inf
  | _, inf => inf
  | ninf, _ => ninf
  | _, ninf => ninf
  | fin x, fin y => fin (x + y)

/-- IEEE subtraction. -/
def Fl.sub : Fl α → Fl α → Fl α
  | nan, _ => nan
  | _, nan => nan
  | inf, inf => nan
  | ninf, ninf => nan
  | inf, _ => inf
  | _, inf => ninf
  | ninf, _ => ninf
  | _, ninf => inf
  | fin x, fin y => fin (x - y)

/-- IEEE negation. -/
def Fl.neg : Fl α → Fl α
  | nan => nan
  | inf => ninf
  | ninf => inf
  | fin x => fin (-x)

/-- IEEE multiplication (`0 * ±inf = nan`). -/
def Fl.mul : Fl α → Fl α → Fl α
  | nan, _ => nan
  | _, nan => nan
  | inf, inf => inf
  | inf, ninf => ninf
  | ninf, inf => ninf
  | ninf, ninf => inf
  | inf, fin y => if y = 0 then nan else if 0 < y then inf else ninf
  | fin x, inf => if x = 0 then nan else if 0 < x then inf else ninf
  | ninf, fin y => if y = 0 then nan else if 0 < y then ninf else inf
  | fin x, ninf => if x = 0 then nan else if 0 < x then ninf else inf
  | fin x, fin y => fin (x * y)

/-- IEEE division (`0 / 0 = nan`, `x / 0 = ±inf` for finite `x ≠ 0`,
`±inf / ±inf = nan`, finite `/ ±inf = 0`).  The divisor 0 is treated as +0. -/
def Fl.div : Fl α → Fl α → Fl α
  | nan, _ => nan
  | _, nan => nan
  | inf, inf => nan
  | inf, ninf => nan
  | ninf, inf => nan
  | ninf, ninf => nan
  | inf, fin y => if 0 ≤ y then inf else ninf
  | ninf, fin y => if 0 ≤ y then ninf else inf
  | fin _, inf => fin 0
  | fin _, ninf => fin 0
  | fin x, fin y =>
    if y = 0 then (if x = 0 then nan else if 0 < x then inf else ninf)
    else fin (x / y)

/-- IEEE absolute value. -/
def Fl.abs : Fl α → Fl α
  | nan => nan
  | inf => inf
  | ninf => inf
  | fin x => fin |x|

/-- IEEE `<=` comparison as the Python/numpy one: any comparison with nan
is false. -/
def Fl.leb : Fl α → Fl α → Bool
  | nan, _ => false
  | _, nan => false
  | ninf, _ => true
  | _, ninf => false
  | _, inf => true
  | inf, _ => false
  | fin x, fin y => decide (x ≤ y)

/-- IEEE `<` comparison: any comparison with nan is false. -/
def Fl.ltb : Fl α → Fl α → Bool
  | nan, _ => false
  | _, nan => false
  | inf, _ => false
  | _, inf => true
  | ninf, ninf => false
  | ninf, _ => true
  | _, ninf => false
  | fin x, fin y => decide (x < y)

/-- Squaring, as numpy `** 2` (which agrees with `x * x` on all doubles). -/
def Fl.sq (a : Fl α) : Fl α := a.mul a

/-- utils.float_equals: `np.abs(left - right) < eps`. -/
def float_equals (left right eps : Fl α) : Bool :=
  ((left.sub right).abs).ltb eps

/-- A 3-vector of embedded doubles (one row of an `(n, 3)` numpy array). -/
abbrev V3 (α : Type) := Fl α × Fl α × Fl α

/-- A plane row `(A, B, C, D)` of an `(n, 4)` numpy array. -/
abbrev V4 (α : Type) := Fl α × Fl α × Fl α × Fl α

/-- Default padding value for (never taken) out-of-range list reads. -/
def V3.dflt : V3 α := (Fl.nan, Fl.nan, Fl.nan)

/-- utils.pairwise_dist_square_sum: the source iterates
`for i in np.arange(1, points_count)` and `for j in np.arange(i+1,
points_count)`, accumulating `np.sum((points[i] - points[j]) ** 2)` into a
float accumulator starting at 0.0.  Note the outer loop starts at index 1,
exactly as in the source. -/
def pairwise_dist_square_sum (points : List (V3 α)) : Fl α :=
  let n := points.length
  ((List.range n).drop 1).foldl
    (fun s i =>
      ((List.range n).drop (i + 1)).foldl
        (fun s2 j =>
          let p := points.getD i V3.dflt
          let q := points.getD j V3.dflt
          s2.add ((((p.1.sub q.1).sq).add ((p.2.1.sub q.2.1).sq)).add
            ((p.2.2.sub q.2.2).sq)))
        s)
    (Fl.fin 0)

/-- utils.__get_points_in_range for a single coordinate `v` and bin index
`index`: `points_range[index] <= v and v < points_range[index + 1]`.
(The source computes this elementwise over the whole point array; we state
it per point.) -/
def get_points_in_range (v : Fl α) (points_range : List (Fl α)) (index : ℕ) :
    Bool :=
  ((points_range.getD index Fl.nan).leb v) &&
    (v.ltb (points_range.getD (index + 1) Fl.nan))

/-- Number of points falling in the 2D bin `(i, j)` (row `i` of `yrange`,
column `j` of `xrange`); this is the value `np.sum(points_in_range_inds)`
assigned to `dens[i, j]` before the final normalization. -/
def cell_count (points : List (Fl α × Fl α)) (xrange yrange : List (Fl α))
    (i j : ℕ) : ℕ :=
  (points.filter (fun p =>
    get_points_in_range p.1 xrange j && get_points_in_range p.2 yrange i)).length

/-- The summand `local_vol` accumulated into `vol` by utils.eval_dens at
cell `(i, j)`: the (pre-normalization) count times the cell edge lengths. -/
def local_vol (points : List (Fl α × Fl α)) (xrange yrange : List (Fl α))
    (i j : ℕ) : Fl α :=
  ((Fl.fin (cell_count points xrange yrange i j : α)).mul
      ((xrange.getD (j + 1) Fl.nan).sub (xrange.getD j Fl.nan))).mul
    ((yrange.getD (i + 1) Fl.nan).sub (yrange.getD i Fl.nan))

/-- The normalizing volume accumulated by utils.eval_dens, in the source's
row-major loop order starting from `0.0`. -/
def eval_dens_vol (points : List (Fl α × Fl α)) (xrange yrange : List (Fl α)) :
    Fl α :=
  (List.range (yrange.length - 1)).foldl
    (fun v i =>
      (List.range (xrange.length - 1)).foldl
        (fun v2 j => v2.add (local_vol points xrange yrange i j)) v)
    (Fl.fin 0)

/-- utils.eval_dens: the `(ycount-1) × (xcount-1)` grid of per-bin counts,
each divided by the accumulated normalizing volume (`dens /= vol` with no
guard, exactly as in the source: for an empty point set `vol` is 0 and
every cell becomes `0.0 / 0.0 = nan`). -/
def eval_dens (points : List (Fl α × Fl α)) (xrange yrange : List (Fl α)) :
    List (List (Fl α)) :=
  let vol := eval_dens_vol points xrange yrange
  (List.range (yrange.length - 1)).map fun i =>
    (List.range (xrange.length - 1)).map fun j =>
      (Fl.fin (cell_count points xrange yrange i j : α)).div vol

/-- utils.__planes_neq_zero for one plane coefficient: the coefficient is
"safely nonzero" when `float_equals(coeff, 0.0, 1e-2)` is false. -/
def plane_coeff_neq_zero (coeff : Fl α) : Bool :=
  !(float_equals coeff (Fl.fin 0) (Fl.fin (1 / 100)))

/-- The `planes_sum_square` value `np.sum(planes[:, :3] ** 2, axis=1)` of
utils.__find_det_planes, for one plane. -/
def planes_sum_square (pl : V4 α) : Fl α :=
  ((pl.1.sq).add (pl.2.1.sq)).add (pl.2.2.1.sq)

/-- utils.__find_det_planes for one plane: `coeff * planes_sum_square`,
where `coeff` is `a` if `a` is safely nonzero, else `b` if `b` is, else
`c` (the source's nested `np.where`). -/
def find_det_plane (pl : V4 α) : Fl α :=
  let s := planes_sum_square pl
  if plane_coeff_neq_zero pl.1 then pl.1.mul s
  else if plane_coeff_neq_zero pl.2.1 then pl.2.1.mul s
  else pl.2.2.1.mul s

/-- utils.__find_projections_a_neq_zero for one point/plane pair, with the
source's exact term order (`-a*a*d + a*c*(c*x - a*z) + a*b*(b*x - a*y)`,
each component divided by the selected determinant). -/
def find_projection_a_neq_zero (p : V3 α) (pl : V4 α) (det : Fl α) : V3 α :=
  let (x, y, z) := p
  let (a, b, c, d) := pl
  let cx_minus_az := (c.mul x).sub (a.mul z)
  let bx_minus_ay := (b.mul x).sub (a.mul y)
  ((((((a.neg).mul a).mul d).add (((a.mul c)).mul cx_minus_az)).add
      ((a.mul b).mul bx_minus_ay)).div det,
   ((((b.mul c).mul cx_minus_az).add
        ((((a.mul a).add (c.mul c)).neg).mul bx_minus_ay)).add
      ((((a.neg).mul b)).mul d)).div det,
   ((((b.mul c).mul bx_minus_ay).add
        ((((a.mul a).add (b.mul b)).neg).mul cx_minus_az)).add
      ((((a.neg).mul c)).mul d)).div det)

/-- utils.__find_projections_b_neq_zero for one point/plane pair.  Note the
first component's last summand is `+ a*b*d` exactly as written in the
source (line `projections[:, 0] += a * b * d`). -/
def find_projection_b_neq_zero (p : V3 α) (pl : V4 α) (det : Fl α) : V3 α :=
  let (x, y, z) := p
  let (a, b, c, d) := pl
  let bx_minus_ay := (b.mul x).sub (a.mul y)
  let cy_minus_bz := (c.mul y).sub (b.mul z)
  (((((((b.mul b).add (c.mul c))).mul bx_minus_ay).add
        ((a.mul c).mul cy_minus_bz)).add ((a.mul b).mul d)).div det,
   ((((b.mul c).mul cy_minus_bz).add (((a.neg).mul b).mul bx_minus_ay)).add
      (((b.neg).mul b).mul d)).div det,
   (((((b.neg).mul c).mul d).add
        ((((a.mul a).add (b.mul b)).neg).mul cy_minus_bz)).add
      (((a.neg).mul c).mul bx_minus_ay)).div det)

/-- utils.__find_projections_c_neq_zero for one point/plane pair. -/
def find_projection_c_neq_zero (p : V3 α) (pl : V4 α) (det : Fl α) : V3 α :=
  let (x, y, z) := p
  let (a, b, c, d) := pl
  let cx_minus_az := (c.mul x).sub (a.mul z)
  let cy_minus_bz := (c.mul y).sub (b.mul z)
  (((((((b.mul b).add (c.mul c))).mul cx_minus_az).add
        (((a.neg).mul b).mul cy_minus_bz)).add (((a.neg).mul c).mul d)).div det,
   (((((a.mul a).add (c.mul c)).mul cy_minus_bz).add
        (((a.neg).mul b).mul cx_minus_az)).add (((b.neg).mul c).mul d)).div det,
   (((((c.neg).mul c).mul d).add
        (((a.neg).mul c).mul cx_minus_az)).add
      (((b.neg).mul c).mul cy_minus_bz)).div det)

/-- utils.__find_points_are_projections for one point/plane pair:
`float_equals(a*x + b*y + c*z + d, 0.0)` with the default 1e-8 tolerance. -/
def point_is_projection (p : V3 α) (pl : V4 α) : Bool :=
  let (x, y, z) := p
  let (a, b, c, d) := pl
  float_equals ((((a.mul x).add (b.mul y)).add (c.mul z)).add d) (Fl.fin 0)
    (Fl.fin (1 / 100000000))

/-- utils.__find_projections for one point/plane pair: the nested
`np.where` selection between the point itself (when already on the plane
within 1e-8) and the three coefficient-regime projections. -/
def project_point_to_plane (p : V3 α) (pl : V4 α) : V3 α :=
  let det := find_det_plane pl
  if point_is_projection p pl then p
  else if plane_coeff_neq_zero pl.1 then find_projection_a_neq_zero p pl det
  else if plane_coeff_neq_zero pl.2.1 then find_projection_b_neq_zero p pl det
  else find_projection_c_neq_zero p pl det

/-- utils.project_points_to_planes: one plane per point, elementwise (the
source computes all branches on whole arrays of equal length and selects
with `np.where`; the arrays are always of equal length at the call sites). -/
def project_points_to_planes (points : List (V3 α)) (planes : List (V4 α)) :
    List (V3 α) :=
  List.zipWith project_point_to_plane points planes

/-- Observation function for the specification's notion of total probability
mass of a density grid: the sum of `dens[i, j] * Δx_j * Δy_i` over all
cells (the integral of the piecewise-constant density over the covered
rectangle). -/
def dens_mass (dens : List (List (Fl α))) (xrange yrange : List (Fl α)) :
    Fl α :=
  (List.range (yrange.length - 1)).foldl
    (fun m i =>
      (List.range (xrange.length - 1)).foldl
        (fun m2 j =>
          m2.add ((((dens.getD i []).getD j Fl.nan).mul
              ((xrange.getD (j + 1) Fl.nan).sub (xrange.getD j Fl.nan))).mul
            ((yrange.getD (i + 1) Fl.nan).sub (yrange.getD i Fl.nan))))
        m)
    (Fl.fin 0)

/-! ## Real-valued part: trig lifts, scipy Rotation, points_cloud.py

The reconstruction pipeline uses `np.tan`, `np.sqrt`, `np.arctan`,
`np.sin`, `np.cos` and `scipy.spatial.transform.Rotation`; we embed it at
`α = ℝ` with the Mathlib real functions (total on ℝ; `Fl` adds the IEEE
behaviour on nan/±inf: trig of a non-finite value is nan except
`arctan(±inf) = ±π/2`, and `sqrt` of a negative value is nan). -/

noncomputable section

/-- IEEE square root on embedded doubles. -/
def Fl.sqrt : Fl ℝ → Fl ℝ
  | Fl.nan => Fl.nan
  | Fl.inf => Fl.inf
  | Fl.ninf => Fl.nan
  | Fl.fin x => if x < 0 then Fl.nan else Fl.fin (Real.sqrt x)

/-- np.sin on embedded doubles. -/
def Fl.sin : Fl ℝ → Fl ℝ
  | Fl.fin x => Fl.fin (Real.sin x)
  | _ => Fl.nan

/-- np.cos on embedded doubles. -/
def Fl.cos : Fl ℝ → Fl ℝ
  | Fl.fin x => Fl.fin (Real.cos x)
  | _ => Fl.nan

/-- np.tan on embedded doubles (Mathlib's `Real.tan` is total; IEEE tan of
a finite double is always finite since odd multiples of π/2 are not
representable). -/
def Fl.tan : Fl ℝ → Fl ℝ
  | Fl.fin x => Fl.fin (Real.tan x)
  | _ => Fl.nan

/-- np.arctan on embedded doubles (`arctan(±inf) = ±π/2`). -/
def Fl.arctan : Fl ℝ → Fl ℝ
  | Fl.fin x => Fl.fin (Real.arctan x)
  | Fl.inf => Fl.fin (Real.pi / 2)
  | Fl.ninf => Fl.fin (-(Real.pi / 2))
  | Fl.nan => Fl.nan

/-- A scipy Rotation, stored as its quaternion `(x, y, z, w)` (scalar
last), exactly as scipy stores it. -/
abbrev Quat := Fl ℝ × Fl ℝ × Fl ℝ × Fl ℝ

/-- scipy `Rotation.from_rotvec`: `angle = norm(rotvec)`; for
`angle <= 1e-3` the quaternion scale uses scipy's Taylor expansion
`0.5 - angle²/48 + angle⁴/3840`, otherwise `sin(angle/2)/angle`; the
quaternion is `(scale * rotvec, cos(angle/2))`.  (scipy builds this
quaternion already normalized and does not renormalize it.) -/
def rotation_from_rotvec (v : V3 ℝ) : Quat :=
  let angle := (((v.1.sq).add (v.2.1.sq)).add (v.2.2.sq)).sqrt
  let scale :=
    if angle.leb (Fl.fin (1 / 1000)) then
      ((Fl.fin (1 / 2)).sub ((angle.mul angle).div (Fl.fin 48))).add
        ((((angle.mul angle)).mul (angle.mul angle)).div (Fl.fin 3840))
    else (Fl.sin (angle.div (Fl.fin 2))).div angle
  (scale.mul v.1, scale.mul v.2.1, scale.mul v.2.2,
    Fl.cos (angle.div (Fl.fin 2)))

/-- scipy `Rotation.from_euler('z', angle)` (radians): the quaternion
`(0, 0, sin(angle/2), cos(angle/2))`. -/
def rotation_from_euler_z (angle : Fl ℝ) : Quat :=
  (Fl.fin 0, Fl.fin 0, Fl.sin (angle.div (Fl.fin 2)),
    Fl.cos (angle.div (Fl.fin 2)))

/-- scipy Rotation composition `p * q` (apply `q` first, then `p`): the
Hamilton product of the scalar-last quaternions, as in scipy's
`_compose_quat` (`pw*q.xyz + qw*p.xyz + p.xyz × q.xyz` and
`pw*qw - p.xyz · q.xyz`).  Composition of unit quaternions is unit, so
scipy's optional renormalization is the identity here. -/
def quat_mul (p q : Quat) : Quat :=
  let (px, py, pz, pw) := p
  let (qx, qy, qz, qw) := q
  ((((pw.mul qx).add (qw.mul px)).add ((py.mul qz).sub (pz.mul qy))),
   (((pw.mul qy).add (qw.mul py)).add ((pz.mul qx).sub (px.mul qz))),
   (((pw.mul qz).add (qw.mul pz)).add ((px.mul qy).sub (py.mul qx))),
   ((((pw.mul qw).sub (px.mul qx)).sub (py.mul qy)).sub (pz.mul qz)))

/-- A 3×3 matrix of embedded doubles, as three rows. -/
abbrev M3 := V3 ℝ × V3 ℝ × V3 ℝ

/-- scipy `Rotation.as_matrix` for a stored (unit) quaternion: the
standard quaternion-to-matrix formula used by scipy. -/
def quat_to_matrix (q : Quat) : M3 :=
  let (x, y, z, w) := q
  let x2 := x.mul x
  let y2 := y.mul y
  let z2 := z.mul z
  let w2 := w.mul w
  let xy := x.mul y
  let zw := z.mul w
  let xz := x.mul z
  let yw := y.mul w
  let yz := y.mul z
  let xw := x.mul w
  (((((x2.sub y2).sub z2).add w2),
    ((Fl.fin 2).mul (xy.sub zw)),
    ((Fl.fin 2).mul (xz.add yw))),
   (((Fl.fin 2).mul (xy.add zw)),
    ((((x2.neg).add y2).sub z2).add w2),
    ((Fl.fin 2).mul (yz.sub xw))),
   (((Fl.fin 2).mul (xz.sub yw)),
    ((Fl.fin 2).mul (yz.add xw)),
    ((((x2.neg).sub y2).add z2).add w2)))

/-- Matrix-vector application (`rotation.apply(point)`). -/
def mat_apply (m : M3) (v : V3 ℝ) : V3 ℝ :=
  let (r0, r1, r2) := m
  ((((r0.1.mul v.1).add (r0.2.1.mul v.2.1)).add (r0.2.2.mul v.2.2)),
   (((r1.1.mul v.1).add (r1.2.1.mul v.2.1)).add (r1.2.2.mul v.2.2)),
   (((r2.1.mul v.1).add (r2.2.1.mul v.2.1)).add (r2.2.2.mul v.2.2)))

/-- `rotation.apply(point)` for a Rotation stored as a quaternion. -/
def quat_apply (q : Quat) (v : V3 ℝ) : V3 ℝ :=
  mat_apply (quat_to_matrix q) v

/-- Componentwise vector addition (numpy `points + look`). -/
def v3_add (u v : V3 ℝ) : V3 ℝ :=
  (u.1.add v.1, u.2.1.add v.2.1, u.2.2.add v.2.2)

/-- A Scan record (points_cloud.py scan keys).  `depth_width` and
`depth_height` are the integer image dimensions. -/
structure Scan where
  camera_angle_of_view : Fl ℝ
  camera_angular_velocity : Fl ℝ
  camera_initial_position : V3 ℝ
  camera_landscape_angle : Fl ℝ
  camera_view_elevation : Fl ℝ
  depth_width : ℕ
  depth_height : ℕ
  sensor_plane_depth : Bool

/-- A Frame record: timestamp, owning scan name, row-major depth and
confidence arrays. -/
structure Frame where
  time : Fl ℝ
  scan : String
  depths : List (Fl ℝ)
  depth_confidences : List (Fl ℝ)

/-- points_cloud.PointsCloudParams with its default field values
(`min_depth_confidence=3, min_z=-inf, max_z=inf, max_z_distance=inf`). -/
structure PointsCloudParams where
  min_depth_confidence : Fl ℝ := Fl.fin 3
  min_z : Fl ℝ := Fl.ninf
  max_z : Fl ℝ := Fl.inf
  max_z_distance : Fl ℝ := Fl.inf

/-- The default parameter set built by `PointsCloudParams()` (used when
`build_points_cloud` is called with `params=None`). -/
def default_params : PointsCloudParams := {}

/-- points_cloud.__get_tan: `np.tan(angle_of_view / 2.0)`. -/
def get_tan (scan : Scan) : Fl ℝ :=
  Fl.tan ((scan.camera_angle_of_view).div (Fl.fin 2))

/-- points_cloud.__get_elev: the vector `(0, 0, view_elevation)`. -/
def get_elev (scan : Scan) : V3 ℝ :=
  (Fl.fin 0, Fl.fin 0, scan.camera_view_elevation)

/-- points_cloud.__get_look_and_elev: `look = eye - elev` (componentwise). -/
def get_look (scan : Scan) : V3 ℝ :=
  let eye := scan.camera_initial_position
  let elev := get_elev scan
  (eye.1.sub elev.1, eye.2.1.sub elev.2.1, eye.2.2.sub elev.2.2)

/-- points_cloud.__get_look_rot_axis: if `|look[1]| > 1e-10` the unit
horizontal direction with slope `-look[0]/look[1]`, else `(0, 1, 0)`. -/
def get_look_rot_axis (look : V3 ℝ) : V3 ℝ :=
  if (Fl.fin (1 / 10000000000)).ltb (look.2.1.abs) then
    let slope := (look.1.neg).div look.2.1
    let axis_x := (Fl.fin 1).div (((Fl.fin 1).add (slope.mul slope)).sqrt)
    (axis_x, slope.mul axis_x, Fl.fin 0)
  else (Fl.fin 0, Fl.fin 1, Fl.fin 0)

/-- points_cloud.__get_look_angle: `arctan(look[2] / norm(look[:2])) + π/2`. -/
def get_look_angle (look : V3 ℝ) : Fl ℝ :=
  let tanv := look.2.2.div (((look.1.sq).add (look.2.1.sq)).sqrt)
  (Fl.arctan tanv).add (Fl.fin (Real.pi / 2))

/-- points_cloud.__get_look_rot: `Rotation.from_rotvec(angle * axis)`. -/
def get_look_rot (look : V3 ℝ) : Quat :=
  let axis := get_look_rot_axis look
  let angle := get_look_angle look
  rotation_from_rotvec (angle.mul axis.1, angle.mul axis.2.1,
    angle.mul axis.2.2)

/-- points_cloud.__get_rot: `look_rot * landscape_rot` (landscape rotation
applied first). -/
def get_rot (scan : Scan) (look : V3 ℝ) : Quat :=
  quat_mul (get_look_rot look) (rotation_from_euler_z scan.camera_landscape_angle)

/-- points_cloud.__get_time_rot: rotation about z by
`(frame.time - time_base) / 1e9 * angular_velocity`. -/
def get_time_rot (scan : Scan) (frame : Frame) (time_base : Fl ℝ) : Quat :=
  let timestamp := (frame.time.sub time_base).div (Fl.fin 1000000000)
  rotation_from_euler_z (timestamp.mul scan.camera_angular_velocity)

/-- The row-major pixel grid of points_cloud.__get_indices (meshgrid of
`arange(height) × arange(width)`, flattened in C order). -/
def pixel_indices (scan : Scan) : List (ℕ × ℕ) :=
  (List.range scan.depth_height).flatMap fun i =>
    (List.range scan.depth_width).map fun j => (i, j)

/-- points_cloud.__get_w_and_h for one pixel: `w = j - width/2.0`,
`h = i - height/2.0`. -/
def get_w_and_h (i j : ℕ) (scan : Scan) : Fl ℝ × Fl ℝ :=
  ((Fl.fin (j : ℝ)).sub ((Fl.fin (scan.depth_width : ℝ)).div (Fl.fin 2)),
   (Fl.fin (i : ℝ)).sub ((Fl.fin (scan.depth_height : ℝ)).div (Fl.fin 2)))

/-- points_cloud.__get_proj_square: `w*w + h*h`. -/
def get_proj_square (w h : Fl ℝ) : Fl ℝ :=
  (w.mul w).add (h.mul h)

/-- points_cloud.__get_depth_sensor_plane:
`depth / cos(arctan(sqrt(proj_square) / (width / tan / 2.0)))`. -/
def get_depth_sensor_plane (scan : Scan) (tan depth proj_square : Fl ℝ) :
    Fl ℝ :=
  let fl := ((Fl.fin (scan.depth_width : ℝ)).div tan).div (Fl.fin 2)
  let angle := Fl.arctan ((proj_square.sqrt).div fl)
  depth.div (Fl.cos angle)

/-- points_cloud.__get_xyz for one pixel:
`denom = sqrt(width² + 4*proj_square*tan²)`, `xy_factor = 2*depth*tan/denom`,
local point `(w*xy_factor, h*xy_factor, depth*width/denom)`. -/
def get_xyz (scan : Scan) (tan w h depth proj_square : Fl ℝ) : V3 ℝ :=
  let width := Fl.fin (scan.depth_width : ℝ)
  let denom := ((width.mul width).add
    ((((Fl.fin 4).mul proj_square).mul tan).mul tan)).sqrt
  let xy_factor := (((Fl.fin 2).mul depth).mul tan).div denom
  (w.mul xy_factor, h.mul xy_factor, (depth.mul width).div denom)

/-- The depth value read for pixel `(i, j)`: `frame.depths[i*width + j]`.
Out-of-range indexing raises IndexError in numpy; frames are assumed
well-formed (depth array length = width*height, spec §3), so the `nan`
default is never read on the claimed inputs. -/
def pixel_depth (scan : Scan) (frame : Frame) (i j : ℕ) : Fl ℝ :=
  frame.depths.getD (i * scan.depth_width + j) Fl.nan

/-- The confidence value read for pixel `(i, j)`. -/
def pixel_confidence (scan : Scan) (frame : Frame) (i j : ℕ) : Fl ℝ :=
  frame.depth_confidences.getD (i * scan.depth_width + j) Fl.nan

/-- The time-base-independent part of the point computed by
points_cloud.__get_points for pixel `(i, j)`: local back-projection, then
`rot.apply(·) + look + elev`. -/
def pixel_pre (scan : Scan) (frame : Frame) (i j : ℕ) : V3 ℝ :=
  let tan := get_tan scan
  let look := get_look scan
  let elev := get_elev scan
  let rot := get_rot scan look
  let (w, h) := get_w_and_h i j scan
  let proj_square := get_proj_square w h
  let depth0 := pixel_depth scan frame i j
  let depth := if scan.sensor_plane_depth then
    get_depth_sensor_plane scan tan depth0 proj_square else depth0
  let local_point := get_xyz scan tan w h depth proj_square
  v3_add (v3_add (quat_apply rot local_point) look) elev

/-- The global-frame point computed by points_cloud.__get_points for pixel
`(i, j)`: the time-base-independent part, then `time_rot.apply(·)`. -/
def pixel_point (scan : Scan) (frame : Frame) (time_base : Fl ℝ)
    (i j : ℕ) : V3 ℝ :=
  quat_apply (get_time_rot scan frame time_base) (pixel_pre scan frame i j)

/-- The filter decision of points_cloud.__get_mask for one point and its
confidence value:
`logical_and.reduce((confidence_mask, z_dist_mask, min_z_mask, max_z_mask))`
with `z_dist = norm(point[:2])`. -/
def point_mask (params : PointsCloudParams) (confidence : Fl ℝ) (p : V3 ℝ) :
    Bool :=
  let z_dist := ((p.1.sq).add (p.2.1.sq)).sqrt
  let confidence_mask := (params.min_depth_confidence).leb confidence
  let z_dist_mask := z_dist.leb params.max_z_distance
  let min_z_mask := (params.min_z).leb p.2.2
  let max_z_mask := p.2.2.leb params.max_z
  confidence_mask && z_dist_mask && min_z_mask && max_z_mask

/-- The filter decision of points_cloud.__get_mask for pixel `(i, j)`. -/
def pixel_keep (params : PointsCloudParams) (scan : Scan) (frame : Frame)
    (time_base : Fl ℝ) (i j : ℕ) : Bool :=
  point_mask params (pixel_confidence scan frame i j)
    (pixel_point scan frame time_base i j)

/-- points_cloud.__get_points: the points of one frame surviving the mask
(`points[mask]`). -/
def get_points (params : PointsCloudParams) (scan : Scan) (frame : Frame)
    (time_base : Fl ℝ) : List (V3 ℝ) :=
  ((pixel_indices scan).filter fun ij =>
    pixel_keep params scan frame time_base ij.1 ij.2).map fun ij =>
      pixel_point scan frame time_base ij.1 ij.2

/-- points_cloud.build_points_cloud: `time_base` is the first frame's
timestamp (`all_frames[0]['time']`, an IndexError — modelled as `none` —
when the frame list is empty); every frame's surviving points are
concatenated in order. -/
def build_points_cloud (all_scans : String → Scan) (all_frames : List Frame)
    (params : PointsCloudParams) : Option (List (V3 ℝ)) :=
  match all_frames with
  | [] => none
  | f0 :: _ =>
    some (all_frames.flatMap fun f =>
      get_points params (all_scans f.scan) f f0.time)

/-- Observation function: the number of reconstructed points (0 for the
error outcome). -/
def cloud_size (o : Option (List (V3 ℝ))) : ℕ :=
  o.elim 0 List.length

/-! ## objectives.py

Each cost function first writes the candidate parameter vector `x` into
the Scan entries named by `scans_keys` (5 slots per scan: position x/y/z,
view elevation, landscape angle), then reruns the reconstruction.  The
source mutates the scans dictionary in place; we model the dictionary as a
function `String → Scan` and return the mutated dictionary alongside the
cost.  A reconstruction failure (empty frame list, an exception in the
source) makes the whole call `none`.  `np.random.shuffle` draws from
numpy's global RNG; the shuffled index order is passed explicitly as the
`shuffled_inds` argument. -/

/-- Default padding value for (never taken) out-of-range plane reads. -/
def V4.dflt : V4 ℝ := (Fl.nan, Fl.nan, Fl.nan, Fl.nan)

/-- numpy `np.sum` of a 1-D array, as a left fold from `0.0`. -/
def np_sum (l : List (Fl ℝ)) : Fl ℝ :=
  l.foldl Fl.add (Fl.fin 0)

/-- Whether an embedded double is nan. -/
def Fl.is_nan : Fl ℝ → Bool
  | Fl.nan => true
  | _ => false

/-- numpy `np.argmin` over a 1-D array: index of the first strict minimum,
except that the first nan (if any) wins, matching numpy's nan
propagation. -/
def np_argmin (l : List (Fl ℝ)) : ℕ :=
  (l.enum.foldl
    (fun best cur =>
      if best.2.is_nan then best
      else if cur.2.is_nan then cur
      else if cur.2.ltb best.2 then cur else best)
    (0, Fl.inf)).1

/-- The in-place parameter write shared by all objectives
(`for i, key in enumerate(scans_keys): scans[key][...] = x[5*i + ...]`).
Out-of-range reads of `x` would raise IndexError in the source; `x` always
has `5 * len(scans_keys)` entries at the call sites. -/
def update_scans (x : List ℝ) (scans_keys : List String)
    (scans : String → Scan) : String → Scan :=
  scans_keys.enum.foldl
    (fun sc ik => fun name =>
      if name = ik.2 then
        { sc name with
          camera_initial_position :=
            (Fl.fin (x.getD (5 * ik.1) 0), Fl.fin (x.getD (5 * ik.1 + 1) 0),
              Fl.fin (x.getD (5 * ik.1 + 2) 0)),
          camera_view_elevation := Fl.fin (x.getD (5 * ik.1 + 3) 0),
          camera_landscape_angle := Fl.fin (x.getD (5 * ik.1 + 4) 0) }
      else sc name)
    scans

/-- The shared argument bundle `(scans, scans_keys, frames,
build_points_cloud_params, ...)` of the objectives. -/
structure ObjectiveArgs where
  scans : String → Scan
  scans_keys : List String
  frames : List Frame
  params : PointsCloudParams

/-- The four fixed separating planes of
objectives.__find_projections_on_different_views. -/
def sep_planes : List (V4 ℝ) :=
  [(Fl.fin 1, Fl.fin 0, Fl.fin 0, Fl.fin 0),
   (Fl.fin (-1), Fl.fin 1, Fl.fin 0, Fl.fin 0),
   (Fl.fin 0, Fl.fin 1, Fl.fin 0, Fl.fin 0),
   (Fl.fin 1, Fl.fin 1, Fl.fin 0, Fl.fin 0)]

/-- The per-separating-plane pair of offset projection planes: the source
repeats each separating plane twice and shifts the `D` coefficient by
`-2` (even slots) and `+2` (odd slots), then reshapes to `(4, 2, 4)`. -/
def projection_plane_pairs : List (V4 ℝ × V4 ℝ) :=
  [((Fl.fin 1, Fl.fin 0, Fl.fin 0, Fl.fin (-2)),
    (Fl.fin 1, Fl.fin 0, Fl.fin 0, Fl.fin 2)),
   ((Fl.fin (-1), Fl.fin 1, Fl.fin 0, Fl.fin (-2)),
    (Fl.fin (-1), Fl.fin 1, Fl.fin 0, Fl.fin 2)),
   ((Fl.fin 0, Fl.fin 1, Fl.fin 0, Fl.fin (-2)),
    (Fl.fin 0, Fl.fin 1, Fl.fin 0, Fl.fin 2)),
   ((Fl.fin 1, Fl.fin 1, Fl.fin 0, Fl.fin (-2)),
    (Fl.fin 1, Fl.fin 1, Fl.fin 0, Fl.fin 2))]

/-- Whether point `p` lies strictly on the positive side of separating
plane `k` (`np.dot(extended_points, sep_planes.T) > 0`, the homogeneous
coordinate being 1). -/
def point_sep_group (p : V3 ℝ) (k : ℕ) : Bool :=
  let pl := sep_planes.getD k V4.dflt
  (Fl.fin 0).ltb
    ((((p.1.mul pl.1).add (p.2.1.mul pl.2.1)).add
        (p.2.2.mul pl.2.2.1)).add ((Fl.fin 1).mul pl.2.2.2))

/-- The offset plane assigned to point `p` for view `k`: the `D - 2` plane
on the positive side of the separating plane, else the `D + 2` plane
(the `np.where(points_sep_groups, ...)` selection). -/
def mapped_plane (p : V3 ℝ) (k : ℕ) : V4 ℝ :=
  let pair := projection_plane_pairs.getD k (V4.dflt, V4.dflt)
  if point_sep_group p k then pair.1 else pair.2

/-- View `k` of objectives.__find_projections_on_different_views: every
point projected onto its assigned offset plane.  (The source makes a
single `project_points_to_planes` call on the 4-fold repeated points with
the flattened mapped planes and then reshapes/transposes; elementwise this
is exactly one projection per (point, view) pair.) -/
def view_projections (points : List (V3 ℝ)) (k : ℕ) : List (V3 ℝ) :=
  project_points_to_planes points (points.map fun p => mapped_plane p k)

/-- Fancy indexing `arr[inds]` on a list of points. -/
def fancy_index (l : List (V3 ℝ)) (inds : List ℕ) : List (V3 ℝ) :=
  inds.map fun i => l.getD i V3.dflt

/-- objectives.multiple_projections_cost.  Returns the mutated scans
dictionary together with the cost; `none` models the IndexError raised by
reconstruction on an empty frame list.  When reconstruction returns zero
points the sentinel `1e+6` is returned (after the scans were already
mutated). -/
def multiple_projections_cost (x : List ℝ) (a : ObjectiveArgs)
    (dist_count : ℕ) (shuffled_inds : List ℕ) :
    Option ((String → Scan) × Fl ℝ) :=
  let scans := update_scans x a.scans_keys a.scans
  (build_points_cloud scans a.frames a.params).map fun points =>
    if points.length = 0 then (scans, Fl.fin 1000000)
    else
      let inds := shuffled_inds.take dist_count
      let d0 := pairwise_dist_square_sum (fancy_index (view_projections points 0) inds)
      let d1 := pairwise_dist_square_sum (fancy_index (view_projections points 1) inds)
      let d2 := pairwise_dist_square_sum (fancy_index (view_projections points 2) inds)
      let d3 := pairwise_dist_square_sum (fancy_index (view_projections points 3) inds)
      let cost := (((((Fl.fin 0) : Fl ℝ).add d0).add d1).add d2).add d3
      (scans, cost.div (Fl.fin (points.length : ℝ)))

/-- The 2D coordinates of objectives.points_in_neighborhood_cost's
`transformed_projections[k]` for one projected point of view `k`
(views 0/2 pick coordinate pairs, views 1/3 rotate the xy-plane by ±45°
via `np.dot(projections[k,:,:2], rot_mat)[:, 1]`). -/
def transformed_projection (pr : V3 ℝ) (k : ℕ) : Fl ℝ × Fl ℝ :=
  let s := Fl.fin (Real.sqrt 2 / 2)
  if k = 0 then (pr.2.1, pr.2.2)
  else if k = 2 then (pr.1, pr.2.2)
  else if k = 1 then ((pr.1.mul s).add (pr.2.1.mul s), pr.2.2)
  else ((pr.1.mul s.neg).add (pr.2.1.mul s), pr.2.2)

/-- The x bin edges `np.linspace(-0.5, 0.5, 101)` of
points_in_neighborhood_cost. -/
def pin_xgrid : List (Fl ℝ) :=
  (List.range 101).map fun m => Fl.fin (-(1 / 2) + (m : ℝ) / 100)

/-- The y bin edges `np.linspace(-0.05, 0.65, 71)` of
points_in_neighborhood_cost. -/
def pin_ygrid : List (Fl ℝ) :=
  (List.range 71).map fun l => Fl.fin (-(1 / 20) + (l : ℝ) / 100)

/-- The target-region indicator of points_in_neighborhood_cost at grid node
`(l, m)` for plane `i`, side `j`:
`(-0.4 <= x <= 0.4) and (0 <= y <= ip[i][j](x))`. -/
def pin_contour (ip : ℕ → ℕ → Fl ℝ → Fl ℝ) (i j l m : ℕ) : Bool :=
  let xv := pin_xgrid.getD m Fl.nan
  let yv := pin_ygrid.getD l Fl.nan
  ((Fl.fin (-(2 / 5))).leb xv && xv.leb (Fl.fin (2 / 5))) &&
    ((Fl.fin 0).leb yv && yv.leb (ip i j xv))

/-- The un-normalized goal-density cell `np.where(contour[:-1, :-1], 1, 0)`
at cell `(l, m)`. -/
def pin_goal_cell (ip : ℕ → ℕ → Fl ℝ → Fl ℝ) (i j l m : ℕ) : Fl ℝ :=
  if pin_contour ip i j l m then Fl.fin 1 else Fl.fin 0

/-- The goal-density normalizer `np.sum(goal_dens * xstep * ystep)` (with
`xstep = ystep = 0.01`), in row-major accumulation order. -/
def pin_goal_vol (ip : ℕ → ℕ → Fl ℝ → Fl ℝ) (i j : ℕ) : Fl ℝ :=
  (List.range 70).foldl
    (fun v l =>
      (List.range 100).foldl
        (fun v2 m => v2.add (((pin_goal_cell ip i j l m).mul
          (Fl.fin (1 / 100))).mul (Fl.fin (1 / 100)))) v)
    (Fl.fin 0)

/-- The transformed projections of view `i` restricted to side `j` of the
separating plane (`points_sep_groups[:, i, 0]` for `j = 0`, its negation
for `j = 1`). -/
def pin_projs (points : List (V3 ℝ)) (i j : ℕ) : List (Fl ℝ × Fl ℝ) :=
  ((points.zip ((view_projections points i).map fun pr =>
      transformed_projection pr i)).filter fun pt =>
    if j = 0 then point_sep_group pt.1 i else !(point_sep_group pt.1 i)).map
    Prod.snd

/-- The summand of points_in_neighborhood_cost for plane `i`, side `j`:
`np.sum((goal_dens - real_dens) ** 2)` over the 70×100 cell grid, with
`goal_dens` normalized by its volume and `real_dens` the empirical 2D
density of the side's transformed projections. -/
def pin_pair_cost (ip : ℕ → ℕ → Fl ℝ → Fl ℝ) (points : List (V3 ℝ))
    (i j : ℕ) : Fl ℝ :=
  let vol := pin_goal_vol ip i j
  let real_dens := eval_dens (pin_projs points i j) pin_xgrid pin_ygrid
  (List.range 70).foldl
    (fun c l =>
      (List.range 100).foldl
        (fun c2 m =>
          c2.add ((((pin_goal_cell ip i j l m).div vol).sub
            (((real_dens.getD l []).getD m Fl.nan))).sq)) c)
    (Fl.fin 0)

/-- objectives.points_in_neighborhood_cost (the commented-out diagnostic
plotting block in the source is dead code).  `ip` is the externally
supplied family of ideal boundary interpolants, one per (plane, side). -/
def points_in_neighborhood_cost (x : List ℝ) (a : ObjectiveArgs)
    (ip : ℕ → ℕ → Fl ℝ → Fl ℝ) : Option ((String → Scan) × Fl ℝ) :=
  let scans := update_scans x a.scans_keys a.scans
  (build_points_cloud scans a.frames a.params).map fun points =>
    if points.length = 0 then (scans, Fl.fin 1000000)
    else
      let cost := (List.range 4).foldl
        (fun c i => (List.range 2).foldl
          (fun c2 j => c2.add (pin_pair_cost ip points i j)) c)
        (Fl.fin 0)
      (scans, cost.div (Fl.fin (points.length : ℝ)))

/-- objectives.multiple_projections_interp_cost: the multi-view projection
cost plus the squared residual between the interpolant-predicted and
actual z, scaled by `1/2000`.  The inner `multiple_projections_cost` call
re-mutates the scans with the same values and reruns reconstruction. -/
def multiple_projections_interp_cost (x : List ℝ) (a : ObjectiveArgs)
    (dist_count : ℕ) (shuffled_inds : List ℕ) (ip : Fl ℝ → Fl ℝ → Fl ℝ) :
    Option ((String → Scan) × Fl ℝ) :=
  let scans := update_scans x a.scans_keys a.scans
  (build_points_cloud scans a.frames a.params).map fun points =>
    if points.length = 0 then (scans, Fl.fin 1000000)
    else
      let mult_proj_cost :=
        (multiple_projections_cost x a dist_count shuffled_inds).elim
          Fl.nan Prod.snd
      let interp_cost := np_sum (points.map fun p =>
        ((ip p.1 p.2.1).sub p.2.2).sq)
      (scans, ((Fl.fin 1).mul mult_proj_cost).add
        ((Fl.fin (1 / 2000)).mul interp_cost))

/-- scipy `cdist` with the default Euclidean metric, one row per left
point. -/
def cdist (bs ps : List (V3 ℝ)) : List (List (Fl ℝ)) :=
  bs.map fun b => ps.map fun p =>
    ((((b.1.sub p.1).sq).add ((b.2.1.sub p.2.1).sq)).add
      ((b.2.2.sub p.2.2).sq)).sqrt

/-- The local-plane coefficient-degeneracy test of
local_plane_uniform_cost, with its 1e-1 tolerance (unlike the 1e-2 used in
utils.project_points_to_planes). -/
def lpuc_coeff_neq_zero (c : Fl ℝ) : Bool :=
  !(float_equals c (Fl.fin 0) (Fl.fin (1 / 10)))

/-- The selected determinant `coeff * planes_sum_square` of
local_plane_uniform_cost (1e-1 tolerance). -/
def lpuc_det_plane (pl : V4 ℝ) : Fl ℝ :=
  let s := planes_sum_square pl
  if lpuc_coeff_neq_zero pl.1 then pl.1.mul s
  else if lpuc_coeff_neq_zero pl.2.1 then pl.2.1.mul s
  else pl.2.2.1.mul s

/-- The inline point-to-plane projection of local_plane_uniform_cost
(objectives.py lines 142-200): identical component formulas to the utils
version — including the `+ A*B*D` term of the b-branch x component — but
with the 1e-1 coefficient tolerance. -/
def lpuc_project (p : V3 ℝ) (pl : V4 ℝ) : V3 ℝ :=
  let det := lpuc_det_plane pl
  if point_is_projection p pl then p
  else if lpuc_coeff_neq_zero pl.1 then find_projection_a_neq_zero p pl det
  else if lpuc_coeff_neq_zero pl.2.1 then find_projection_b_neq_zero p pl det
  else find_projection_c_neq_zero p pl det

/-- The local best-fit plane of local_plane_uniform_cost for one base
point `b` with nearest point `n` and second-nearest point `s`: the
closed-form 3-point plane `(a, b, -1, d)` via determinants, replaced by
the axis-aligned fallbacks `x = b.x` / `y = b.y` when the three points
share (within 1e-8) their x or respectively y coordinates. -/
def lpuc_plane (b n s : V3 ℝ) : V4 ℝ :=
  let all_x_eq := float_equals n.1 s.1 (Fl.fin (1 / 100000000)) &&
    float_equals b.1 n.1 (Fl.fin (1 / 100000000))
  let all_y_eq := float_equals n.2.1 s.2.1 (Fl.fin (1 / 100000000)) &&
    float_equals b.2.1 n.2.1 (Fl.fin (1 / 100000000))
  if all_x_eq then (Fl.fin 1, Fl.fin 0, Fl.fin 0, (Fl.fin 0).sub b.1)
  else if all_y_eq then (Fl.fin 0, Fl.fin 1, Fl.fin 0, (Fl.fin 0).sub b.2.1)
  else
    let det := (((((b.1.mul n.2.1).add (n.1.mul s.2.1)).add
      (s.1.mul b.2.1)).sub (s.1.mul n.2.1)).sub (n.1.mul b.2.1)).sub
      (b.1.mul s.2.1)
    let pa := ((((((b.2.2.mul n.2.1).add (n.2.2.mul s.2.1)).add
      (s.2.2.mul b.2.1)).sub (s.2.2.mul n.2.1)).sub (n.2.2.mul b.2.1)).sub
      (b.2.2.mul s.2.1)).div det
    let pb := ((((((b.1.mul n.2.2).add (n.1.mul s.2.2)).add
      (s.1.mul b.2.2)).sub (s.1.mul n.2.2)).sub (n.1.mul b.2.2)).sub
      (b.1.mul s.2.2)).div det
    let pd := ((((((((b.1.mul n.2.1).mul s.2.2)).add
      (((n.1.mul s.2.1).mul b.2.2))).add
      (((s.1.mul b.2.1).mul n.2.2))).sub
      (((s.1.mul n.2.1).mul b.2.2))).sub
      (((n.1.mul b.2.1).mul s.2.2))).sub
      (((b.1.mul s.2.1).mul n.2.2))).div det
    (pa, pb, Fl.fin (-1), pd)

/-- 3×3 determinant (cofactor expansion along the first row). -/
def mat3_det (m : M3) : Fl ℝ :=
  let ((a, b, c), (d, e, f), (g, h, i)) := m
  (((a.mul ((e.mul i).sub (f.mul h))).sub
      (b.mul ((d.mul i).sub (f.mul g)))).add
    (c.mul ((d.mul h).sub (e.mul g))))

/-- 3×3 matrix inverse by the adjugate formula.  numpy's `np.linalg.inv`
computes the same values via LU factorization for invertible input and
raises LinAlgError on exactly singular input (where this formula divides
by the zero determinant); no claim reaches the singular case. -/
def mat3_inv (m : M3) : M3 :=
  let ((a, b, c), (d, e, f), (g, h, i)) := m
  let det := mat3_det m
  ((((e.mul i).sub (f.mul h)).div det,
    ((c.mul h).sub (b.mul i)).div det,
    ((b.mul f).sub (c.mul e)).div det),
   (((f.mul g).sub (d.mul i)).div det,
    ((a.mul i).sub (c.mul g)).div det,
    ((c.mul d).sub (a.mul f)).div det),
   (((d.mul h).sub (e.mul g)).div det,
    ((b.mul g).sub (a.mul h)).div det,
    ((a.mul e).sub (b.mul d)).div det))

/-- Componentwise normalization `v / np.linalg.norm(v)`. -/
def v3_normalize (v : V3 ℝ) : V3 ℝ :=
  let n := (((v.1.sq).add (v.2.1.sq)).add (v.2.2.sq)).sqrt
  (v.1.div n, v.2.1.div n, v.2.2.div n)

/-- objectives.local_plane_uniform_cost.  `base_points` is the fixed
reference point set from `args`.  Returns the mutated scans dictionary and
the cost; the sentinel `1e+8` is returned when reconstruction yields zero
points or the base point set is empty. -/
def local_plane_uniform_cost (x : List ℝ) (a : ObjectiveArgs)
    (base_points : List (V3 ℝ)) : Option ((String → Scan) × Fl ℝ) :=
  let scans := update_scans x a.scans_keys a.scans
  (build_points_cloud scans a.frames a.params).map fun points =>
    if points.length = 0 ∨ base_points.length = 0 then (scans, Fl.fin 100000000)
    else
      let distances := cdist base_points points
      let nearest_base_points_inds := (List.range points.length).map fun j =>
        np_argmin (distances.map fun row => row.getD j Fl.nan)
      let nearest_points_inds := distances.map np_argmin
      let nearest_points := nearest_points_inds.map fun i =>
        points.getD i V3.dflt
      let distances_without := distances.enum.map fun irow =>
        irow.2.enum.map fun jv =>
          if jv.1 = nearest_points_inds.getD irow.1 0 then Fl.inf else jv.2
      let second_inds := distances_without.map np_argmin
      let second_points := second_inds.map fun i => points.getD i V3.dflt
      let planes := (List.range base_points.length).map fun i =>
        lpuc_plane (base_points.getD i V3.dflt)
          (nearest_points.getD i V3.dflt) (second_points.getD i V3.dflt)
      let projections := (List.range points.length).map fun n =>
        lpuc_project (points.getD n V3.dflt)
          (planes.getD (nearest_base_points_inds.getD n 0) V4.dflt)
      let quasi_dist_points_projections := np_sum
        ((List.range points.length).map fun n =>
          let p := points.getD n V3.dflt
          let pr := projections.getD n V3.dflt
          (((p.1.sub pr.1).sq).add ((p.2.1.sub pr.2.1).sq)).add
            ((p.2.2.sub pr.2.2).sq))
      let transition_matrices := (List.range base_points.length).map fun i =>
        let bx := v3_normalize
          (((second_points.getD i V3.dflt).1.sub (base_points.getD i V3.dflt).1),
           ((second_points.getD i V3.dflt).2.1.sub (base_points.getD i V3.dflt).2.1),
           ((second_points.getD i V3.dflt).2.2.sub (base_points.getD i V3.dflt).2.2))
        let pl := planes.getD i V4.dflt
        let bz := v3_normalize (pl.1, pl.2.1, pl.2.2.1)
        let by0 := v3_normalize
          (((bz.2.2.mul bx.2.1).sub (bz.2.1.mul bx.2.2)),
           ((bz.1.mul bx.2.2).sub (bz.2.2.mul bx.1)),
           ((bz.2.1.mul bx.1).sub (bz.1.mul bx.2.1)))
        (((bx.1, by0.1, bz.1) : V3 ℝ), ((bx.2.1, by0.2.1, bz.2.1) : V3 ℝ),
          ((bx.2.2, by0.2.2, bz.2.2) : V3 ℝ))
      let transformed_projections := (List.range points.length).map fun n =>
        mat_apply
          (mat3_inv (transition_matrices.getD
            (nearest_base_points_inds.getD n 0) (V3.dflt, V3.dflt, V3.dflt)))
          (projections.getD n V3.dflt)
      let dens_range : List (Fl ℝ) :=
        (List.range 121).map fun m => Fl.fin (-(3 / 5) + (m : ℝ) / 100)
      let dens := eval_dens
        (transformed_projections.map fun p => (p.1, p.2.1)) dens_range dens_range
      let goal := Fl.fin (1 / ((6 / 5 : ℝ) * (6 / 5)))
      let quasi_dist_dens_goal := (List.range 120).foldl
        (fun c l => (List.range 120).foldl
          (fun c2 m =>
            c2.add ((((dens.getD l []).getD m Fl.nan).sub goal).sq)) c)
        (Fl.fin 0)
      (scans, ((Fl.fin (1 / 20)).mul quasi_dist_points_projections).add
        ((Fl.fin (1 / 25000)).mul quasi_dist_dens_goal))

/-! ## Validity predicates and the concrete scenario inputs -/

/-- Whether an embedded double is a finite number. -/
def Fl.is_fin : Fl ℝ → Bool
  | Fl.fin _ => true
  | _ => false

/-- Whether an embedded double is finite or nan (not a signed infinity). -/
def Fl.fon : Fl ℝ → Bool
  | Fl.inf => false
  | Fl.ninf => false
  | _ => true

/-- Validity of a frame (with respect to a scans dictionary) used by the
frame-reordering claim: the timestamp is a finite number, the owning
scan's position and view elevation are not infinite, and no stored depth
is infinite.  (Real scan data always satisfies this.) -/
def frame_valid (scans : String → Scan) (f : Frame) : Bool :=
  f.time.is_fin &&
    (scans f.scan).camera_initial_position.1.fon &&
    (scans f.scan).camera_initial_position.2.1.fon &&
    (scans f.scan).camera_initial_position.2.2.fon &&
    (scans f.scan).camera_view_elevation.fon &&
    f.depths.all Fl.fon

/-- The total pixel count `Σ width × height` over the frames of a
reconstruction input (the upper bound of spec §8). -/
def total_pixel_count (scans : String → Scan) (frames : List Frame) : ℕ :=
  (frames.map fun f =>
    (scans f.scan).depth_width * (scans f.scan).depth_height).sum

/-- The single scan of the spec §8 reconstruction scenario:
`angle_of_view = π/2`, `angular_velocity = 0`, `position = (0,0,0)`,
`view elevation = 0`, `landscape angle = 0`, `sensor_plane_depth = false`,
on a 2×2 depth image (whose pixel `(1,1)` is the center pixel
`w = h = 0`, i.e. the pixel on the optical axis). -/
def scenario_scan : Scan where
  camera_angle_of_view := Fl.fin (Real.pi / 2)
  camera_angular_velocity := Fl.fin 0
  camera_initial_position := (Fl.fin 0, Fl.fin 0, Fl.fin 0)
  camera_landscape_angle := Fl.fin 0
  camera_view_elevation := Fl.fin 0
  depth_width := 2
  depth_height := 2
  sensor_plane_depth := false

/-- The single frame of the spec §8 scenario: all-zero depth and
confidence arrays except the center pixel (row-major index 3), which has
depth 1.0 and confidence 5. -/
def scenario_frame : Frame where
  time := Fl.fin 0
  scan := "s"
  depths := [Fl.fin 0, Fl.fin 0, Fl.fin 0, Fl.fin 1]
  depth_confidences := [Fl.fin 0, Fl.fin 0, Fl.fin 0, Fl.fin 5]

/-- The scans dictionary of the spec §8 scenario. -/
def scenario_scans : String → Scan := fun _ => scenario_scan

/-- The scenario scan with nonzero extrinsic fields, used as the
pre-mutation state of the objective-function witnesses: writing the
parameter vector `(0,0,0,0,0)` into it yields exactly `scenario_scan`. -/
def scenario_base_scan : Scan :=
  { scenario_scan with
    camera_initial_position := (Fl.fin 5, Fl.fin 6, Fl.fin 7),
    camera_view_elevation := Fl.fin 8,
    camera_landscape_angle := Fl.fin 9 }

end

/-! ## Basic lemmas about the embedded arithmetic -/

section FlLemmas

variable {α : Type} [LinearOrderedField α]

@[simp] theorem Fl.add_fin_fin (x y : α) :
    (Fl.fin x).add (Fl.fin y) = Fl.fin (x + y) := rfl

@[simp] theorem Fl.sub_fin_fin (x y : α) :
    (Fl.fin x).sub (Fl.fin y) = Fl.fin (x - y) := rfl

@[simp] theorem Fl.mul_fin_fin (x y : α) :
    (Fl.fin x).mul (Fl.fin y) = Fl.fin (x * y) := rfl

@[simp] theorem Fl.neg_fin (x : α) : (Fl.fin x).neg = Fl.fin (-x) := rfl

@[simp] theorem Fl.abs_fin (x : α) : (Fl.fin x).abs = Fl.fin |x| := rfl

@[simp] theorem Fl.abs_nan : (Fl.nan : Fl α).abs = Fl.nan := rfl

@[simp] theorem Fl.sq_fin (x : α) : (Fl.fin x).sq = Fl.fin (x * x) := rfl

@[simp] theorem Fl.sq_nan : (Fl.nan : Fl α).sq = Fl.nan := rfl

@[simp] theorem Fl.nan_add (a : Fl α) : Fl.nan.add a = Fl.nan := by
  cases a <;> rfl

@[simp] theorem Fl.add_nan (a : Fl α) : a.add Fl.nan = Fl.nan := by
  cases a <;> rfl

@[simp] theorem Fl.nan_sub (a : Fl α) : Fl.nan.sub a = Fl.nan := by
  cases a <;> rfl

@[simp] theorem Fl.sub_nan (a : Fl α) : a.sub Fl.nan = Fl.nan := by
  cases a <;> rfl

@[simp] theorem Fl.nan_mul (a : Fl α) : Fl.nan.mul a = Fl.nan := by
  cases a <;> rfl

@[simp] theorem Fl.mul_nan (a : Fl α) : a.mul Fl.nan = Fl.nan := by
  cases a <;> rfl

@[simp] theorem Fl.nan_div (a : Fl α) : Fl.nan.div a = Fl.nan := by
  cases a <;> rfl

@[simp] theorem Fl.div_nan (a : Fl α) : a.div Fl.nan = Fl.nan := by
  cases a <;> rfl

theorem Fl.div_fin_fin_of_ne {y : α} (h : y ≠ 0) (x : α) :
    (Fl.fin x).div (Fl.fin y) = Fl.fin (x / y) := by
  simp [Fl.div, h]

@[simp] theorem Fl.div_fin_zero_zero :
    (Fl.fin (0 : α)).div (Fl.fin 0) = Fl.nan := by
  simp [Fl.div]

@[simp] theorem Fl.leb_nan_left (a : Fl α) : Fl.nan.leb a = false := by
  cases a <;> rfl

@[simp] theorem Fl.leb_nan_right (a : Fl α) : a.leb Fl.nan = false := by
  cases a <;> rfl

@[simp] theorem Fl.leb_fin_fin (x y : α) :
    (Fl.fin x).leb (Fl.fin y) = decide (x ≤ y) := rfl

@[simp] theorem Fl.leb_fin_inf (x : α) : (Fl.fin x).leb Fl.inf = true := rfl

@[simp] theorem Fl.leb_ninf_fin (x : α) : Fl.ninf.leb (Fl.fin x) = true := rfl

@[simp] theorem Fl.ltb_nan_left (a : Fl α) : Fl.nan.ltb a = false := by
  cases a <;> rfl

@[simp] theorem Fl.ltb_nan_right (a : Fl α) : a.ltb Fl.nan = false := by
  cases a <;> rfl

@[simp] theorem Fl.ltb_fin_fin (x y : α) :
    (Fl.fin x).ltb (Fl.fin y) = decide (x < y) := rfl

@[simp] theorem Fl.ltb_fin_inf (x : α) : (Fl.fin x).ltb Fl.inf = true := rfl

end FlLemmas

section FlRealLemmas

@[simp] theorem Fl.sqrt_nan : Fl.nan.sqrt = Fl.nan := rfl

theorem Fl.sqrt_fin_of_nonneg {x : ℝ} (h : 0 ≤ x) :
    (Fl.fin x).sqrt = Fl.fin (Real.sqrt x) := by
  simp [Fl.sqrt, not_lt.2 h]

@[simp] theorem Fl.sqrt_fin_zero : (Fl.fin (0 : ℝ)).sqrt = Fl.fin 0 := by
  rw [Fl.sqrt_fin_of_nonneg le_rfl, Real.sqrt_zero]

@[simp] theorem Fl.sin_fin (x : ℝ) : (Fl.fin x).sin = Fl.fin (Real.sin x) := rfl

@[simp] theorem Fl.sin_nan : Fl.nan.sin = Fl.nan := rfl

@[simp] theorem Fl.cos_fin (x : ℝ) : (Fl.fin x).cos = Fl.fin (Real.cos x) := rfl

@[simp] theorem Fl.cos_nan : Fl.nan.cos = Fl.nan := rfl

@[simp] theorem Fl.tan_fin (x : ℝ) : (Fl.fin x).tan = Fl.fin (Real.tan x) := rfl

@[simp] theorem Fl.tan_nan : Fl.nan.tan = Fl.nan := rfl

@[simp] theorem Fl.arctan_fin (x : ℝ) :
    (Fl.fin x).arctan = Fl.fin (Real.arctan x) := rfl

@[simp] theorem Fl.arctan_nan : Fl.nan.arctan = Fl.nan := rfl

end FlRealLemmas

/-! ## Claims -/

/-- C1: the specification requires `pairwise_dist_square_sum` to return
the sum of squared distances over all unordered pairs `i < j` with `i`
ranging from 0 — in particular `‖p1 - p2‖²` on a 2-point set.  The
source's outer loop starts at `np.arange(1, points_count)`, so point 0
never contributes: on every 2-point set the code returns 0.0, and on the
failing input `((0,0,0), (1,0,0))` it returns 0 instead of the squared
distance 1. -/
theorem C1_pairwise_sum_skips_point_zero :
    (∀ p q : V3 ℚ, pairwise_dist_square_sum [p, q] = Fl.fin 0) ∧
      pairwise_dist_square_sum
        [((Fl.fin 0 : Fl ℚ), Fl.fin 0, Fl.fin 0),
         (Fl.fin 1, Fl.fin 0, Fl.fin 0)] ≠ Fl.fin 1 := by
  refine ⟨fun p q => rfl, ?_⟩
  decide

/-- Helper: a left fold of `Fl.add` over summands that are all exactly
`fin 0` stays `fin 0`. -/
theorem foldl_add_fin_zero {α : Type} [LinearOrderedField α] (f : ℕ → Fl α) :
    ∀ l : List ℕ, (∀ j ∈ l, f j = Fl.fin 0) →
      l.foldl (fun v j => v.add (f j)) (Fl.fin 0) = Fl.fin 0 := by
  intro l
  induction l with
  | nil => intro _; rfl
  | cons a t ih =>
    intro h
    have ha : f a = Fl.fin 0 := h a (by simp)
    simp only [List.foldl_cons, ha]
    rw [show (Fl.fin (0 : α)).add (Fl.fin 0) = Fl.fin 0 by simp]
    exact ih fun j hj => h j (List.mem_cons_of_mem _ hj)

/-- Helper: a nested row/column left fold of `Fl.add` over all-`fin 0`
summands stays `fin 0`. -/
theorem foldl2_add_fin_zero {α : Type} [LinearOrderedField α]
    (g : ℕ → ℕ → Fl α) (cols : List ℕ) :
    ∀ rows : List ℕ, (∀ i ∈ rows, ∀ j ∈ cols, g i j = Fl.fin 0) →
      rows.foldl
        (fun v i => cols.foldl (fun v2 j => v2.add (g i j)) v)
        (Fl.fin 0) = Fl.fin 0 := by
  intro rows
  induction rows with
  | nil => intro _; rfl
  | cons a t ih =>
    intro h
    simp only [List.foldl_cons]
    rw [foldl_add_fin_zero (g a) cols (h a (by simp))]
    exact ih fun i hi j hj => h i (List.mem_cons_of_mem _ hi) j hj

/-- Helper: an in-range read of a `Fl.fin`-mapped list yields a `fin`. -/
theorem getD_map_fin {α : Type} [LinearOrderedField α] (l : List α) (k : ℕ)
    (hk : k < l.length) : (l.map Fl.fin).getD k Fl.nan = Fl.fin l[k] := by
  rw [List.getD_eq_getElem?_getD, List.getElem?_map,
    List.getElem?_eq_getElem hk]
  rfl

/-- Helper: for an empty point set the accumulated volume is exactly 0 and
every cell of the returned grid is `0/0 = nan`. -/
theorem eval_dens_empty {α : Type} [LinearOrderedField α] (xs ys : List α) :
    eval_dens ([] : List (Fl α × Fl α)) (xs.map Fl.fin) (ys.map Fl.fin) =
      (List.range (ys.length - 1)).map (fun _ =>
        (List.range (xs.length - 1)).map fun _ => Fl.nan) ∧
      eval_dens_vol ([] : List (Fl α × Fl α)) (xs.map Fl.fin)
        (ys.map Fl.fin) = Fl.fin 0 := by
  have hcell : ∀ i j, cell_count ([] : List (Fl α × Fl α)) (xs.map Fl.fin)
      (ys.map Fl.fin) i j = 0 := fun i j => rfl
  have hlocal : ∀ i j, i < ys.length - 1 → j < xs.length - 1 →
      local_vol ([] : List (Fl α × Fl α)) (xs.map Fl.fin) (ys.map Fl.fin) i j
        = Fl.fin 0 := by
    intro i j hi hj
    have hx1 : j < xs.length := lt_of_lt_of_le hj (Nat.sub_le _ _)
    have hx2 : j + 1 < xs.length := by omega
    have hy1 : i < ys.length := lt_of_lt_of_le hi (Nat.sub_le _ _)
    have hy2 : i + 1 < ys.length := by omega
    rw [local_vol, hcell, getD_map_fin _ _ hx1, getD_map_fin _ _ hx2,
      getD_map_fin _ _ hy1, getD_map_fin _ _ hy2]
    simp
  have hvol : eval_dens_vol ([] : List (Fl α × Fl α)) (xs.map Fl.fin)
      (ys.map Fl.fin) = Fl.fin 0 := by
    rw [eval_dens_vol]
    simp only [List.length_map]
    exact foldl2_add_fin_zero _ _ _ fun i hi j hj =>
      hlocal i j (List.mem_range.mp hi) (List.mem_range.mp hj)
  refine ⟨?_, hvol⟩
  rw [eval_dens]
  simp only [List.length_map, hvol, hcell]
  simp

/-- C3 counterexample: on the empty point set with bin edges `[0, 1]` on
both axes, `eval_dens` does not return the all-zero grid the claim
requires: the zero count is divided by the zero accumulated volume and
the single cell is nan. -/
theorem C3_counterexample :
    eval_dens ([] : List (Fl ℚ × Fl ℚ)) [Fl.fin 0, Fl.fin 1]
      [Fl.fin 0, Fl.fin 1] ≠ [[Fl.fin 0]] := by
  have h := (eval_dens_empty ([0, 1] : List ℚ) [0, 1]).1
  simp only [List.map_cons, List.map_nil] at h
  rw [h]
  simp [List.range_succ]

/-- C3 amended: for an empty 2D point set (and any bin-edge sequences of
finite values) the normalizing volume accumulates to exactly 0, the
division `dens /= vol` is performed anyway (numpy emits a runtime warning,
not an exception), and the returned grid is all-nan — not all-zero. -/
theorem C3_empty_dens_all_nan (xs ys : List ℚ) :
    eval_dens ([] : List (Fl ℚ × Fl ℚ)) (xs.map Fl.fin) (ys.map Fl.fin) =
      (List.range (ys.length - 1)).map (fun _ =>
        (List.range (xs.length - 1)).map fun _ => Fl.nan) ∧
      eval_dens_vol ([] : List (Fl ℚ × Fl ℚ)) (xs.map Fl.fin)
        (ys.map Fl.fin) = Fl.fin 0 :=
  eval_dens_empty xs ys

/-- C9: for an empty frame sequence, `__init_build_points_cloud` reads
`all_frames[0]['time']` unconditionally, raising IndexError (modelled as
`none`) instead of returning an empty point array. -/
theorem C9_empty_frames_raise (scans : String → Scan)
    (params : PointsCloudParams) :
    build_points_cloud scans [] params = none := rfl

/-- C5: projection is claimed idempotent for every point and plane.  The
b-regime x-component of the source carries `+ a*b*d` where the orthogonal
projection requires `- a*b*d`, so for the plane `(1/200, 1, 0, 1)` (with
`|a| < 1e-2 ≤ |b|`) the first projection of the origin does not land on
the plane (plane equation `2a²d/S ≈ 5e-5`, far above the 1e-8 on-plane
tolerance) and projecting it again moves it: the code violates the claim.
The x-component moves from `200/40001` to `24000200/1600080001`. -/
theorem C5_projection_not_idempotent :
    project_points_to_planes
        (project_points_to_planes
          [((Fl.fin 0 : Fl ℚ), Fl.fin 0, Fl.fin 0)]
          [(Fl.fin (1 / 200), Fl.fin 1, Fl.fin 0, Fl.fin 1)])
        [(Fl.fin (1 / 200), Fl.fin 1, Fl.fin 0, Fl.fin 1)] ≠
      project_points_to_planes
        [((Fl.fin 0 : Fl ℚ), Fl.fin 0, Fl.fin 0)]
        [(Fl.fin (1 / 200), Fl.fin 1, Fl.fin 0, Fl.fin 1)] := by
  have ha : plane_coeff_neq_zero (Fl.fin (1 / 200 : ℚ)) = false := by
    simp only [plane_coeff_neq_zero, float_equals, Fl.sub_fin_fin, Fl.abs_fin,
      Fl.ltb_fin_fin, Bool.not_eq_false', decide_eq_true_eq]
    norm_num
    rw [abs_of_nonneg (by norm_num : (0 : ℚ) ≤ 1 / 200)]
    norm_num
  have hb : plane_coeff_neq_zero (Fl.fin (1 : ℚ)) = true := by
    simp only [plane_coeff_neq_zero, float_equals, Fl.sub_fin_fin, Fl.abs_fin,
      Fl.ltb_fin_fin, Bool.not_eq_true', decide_eq_false_iff_not]
    norm_num
  have hdet : find_det_plane
      ((Fl.fin (1 / 200 : ℚ), Fl.fin 1, Fl.fin 0, Fl.fin 1) : V4 ℚ) =
      Fl.fin (40001 / 40000) := by
    rw [find_det_plane]
    simp only [ha, hb, Bool.false_eq_true, if_false, if_true,
      planes_sum_square, Fl.sq_fin, Fl.add_fin_fin, Fl.mul_fin_fin]
    norm_num
  have h1 : project_point_to_plane ((Fl.fin 0 : Fl ℚ), Fl.fin 0, Fl.fin 0)
      (Fl.fin (1 / 200), Fl.fin 1, Fl.fin 0, Fl.fin 1) =
      (Fl.fin (200 / 40001), Fl.fin (-(40000 / 40001)), Fl.fin 0) := by
    rw [project_point_to_plane]
    have hnot_on : point_is_projection ((Fl.fin 0 : Fl ℚ), Fl.fin 0, Fl.fin 0)
        (Fl.fin (1 / 200), Fl.fin 1, Fl.fin 0, Fl.fin 1) = false := by
      simp only [point_is_projection, float_equals, Fl.mul_fin_fin,
        Fl.add_fin_fin, Fl.sub_fin_fin, Fl.abs_fin, Fl.ltb_fin_fin,
        decide_eq_false_iff_not]
      norm_num
    simp only [hnot_on, ha, hb, Bool.false_eq_true, if_false, if_true, hdet]
    rw [find_projection_b_neq_zero]
    simp only [Fl.mul_fin_fin, Fl.add_fin_fin, Fl.sub_fin_fin, Fl.neg_fin]
    rw [Fl.div_fin_fin_of_ne (by norm_num), Fl.div_fin_fin_of_ne (by norm_num),
      Fl.div_fin_fin_of_ne (by norm_num)]
    norm_num
  have h2x : (project_point_to_plane
      ((Fl.fin (200 / 40001) : Fl ℚ), Fl.fin (-(40000 / 40001)), Fl.fin 0)
      (Fl.fin (1 / 200), Fl.fin 1, Fl.fin 0, Fl.fin 1)).1 =
      Fl.fin (24000200 / 1600080001) := by
    rw [project_point_to_plane]
    have hnot_on : point_is_projection
        ((Fl.fin (200 / 40001) : Fl ℚ), Fl.fin (-(40000 / 40001)), Fl.fin 0)
        (Fl.fin (1 / 200), Fl.fin 1, Fl.fin 0, Fl.fin 1) = false := by
      simp only [point_is_projection, float_equals, Fl.mul_fin_fin,
        Fl.add_fin_fin, Fl.sub_fin_fin, Fl.abs_fin, Fl.ltb_fin_fin,
        decide_eq_false_iff_not]
      norm_num
      rw [abs_of_nonneg (by norm_num : (0 : ℚ) ≤ 2 / 40001)]
      norm_num
    simp only [hnot_on, ha, hb, Bool.false_eq_true, if_false, if_true, hdet]
    rw [find_projection_b_neq_zero]
    simp only [Fl.mul_fin_fin, Fl.add_fin_fin, Fl.sub_fin_fin, Fl.neg_fin]
    rw [Fl.div_fin_fin_of_ne (by norm_num)]
    simp only [Fl.fin.injEq]
    norm_num
  intro heq
  simp only [project_points_to_planes, List.zipWith_cons_cons,
    List.zipWith_nil_right, h1] at heq
  have hx := congrArg (fun l => (l.getD 0 V3.dflt).1) heq
  simp only [List.getD_cons_zero, h2x] at hx
  rw [Fl.fin.injEq] at hx
  norm_num at hx

section DensMass

variable {α : Type} [LinearOrderedField α]

/-- Helper: a left fold of `+` over a field equals the starting value plus
the list sum. -/
theorem foldl_add_eq_sum (g : ℕ → α) (l : List ℕ) (s : α) :
    l.foldl (fun v j => v + g j) s = s + (l.map g).sum := by
  induction l generalizing s with
  | nil => simp
  | cons a t ih => simp [ih, add_assoc]

/-- Helper: the nested row/column left fold of `+` equals the nested list
sum. -/
theorem foldl2_add_eq_sum (g : ℕ → ℕ → α) (cols : List ℕ) :
    ∀ (rows : List ℕ) (s : α),
      rows.foldl (fun v i => cols.foldl (fun v2 j => v2 + g i j) v) s =
        s + (rows.map fun i => (cols.map (g i)).sum).sum := by
  intro rows
  induction rows with
  | nil => intro s; simp
  | cons a t ih =>
    intro s
    simp only [List.foldl_cons, List.map_cons, List.sum_cons]
    rw [foldl_add_eq_sum, ih, add_assoc]

/-- Helper: a left fold of `Fl.add` whose summands are all `fin` equals the
`fin` of the corresponding field fold. -/
theorem foldl_add_fin_of (t : ℕ → Fl α) (g : ℕ → α) :
    ∀ (l : List ℕ), (∀ j ∈ l, t j = Fl.fin (g j)) → ∀ s : α,
      l.foldl (fun v j => v.add (t j)) (Fl.fin s) =
        Fl.fin (l.foldl (fun v j => v + g j) s) := by
  intro l
  induction l with
  | nil => intro _ s; rfl
  | cons a tl ih =>
    intro h s
    simp only [List.foldl_cons, h a (by simp), Fl.add_fin_fin]
    exact ih (fun j hj => h j (List.mem_cons_of_mem _ hj)) (s + g a)

/-- Helper: the nested version of `foldl_add_fin_of`. -/
theorem foldl2_add_fin_of (t : ℕ → ℕ → Fl α) (g : ℕ → ℕ → α)
    (cols : List ℕ) :
    ∀ (rows : List ℕ), (∀ i ∈ rows, ∀ j ∈ cols, t i j = Fl.fin (g i j)) →
      ∀ s : α,
      rows.foldl (fun v i => cols.foldl (fun v2 j => v2.add (t i j)) v)
          (Fl.fin s) =
        Fl.fin (rows.foldl
          (fun v i => cols.foldl (fun v2 j => v2 + g i j) v) s) := by
  intro rows
  induction rows with
  | nil => intro _ s; rfl
  | cons a tl ih =>
    intro h s
    simp only [List.foldl_cons]
    rw [foldl_add_fin_of (t a) (g a) cols (h a (by simp)) s]
    exact ih (fun i hi j hj => h i (List.mem_cons_of_mem _ hi) j hj) _

/-- Helper: dividing every mapped summand by a constant divides the sum. -/
theorem sum_map_div {β : Type} (l : List β) (f : β → α) (c : α) :
    (l.map fun x => f x / c).sum = (l.map f).sum / c := by
  induction l with
  | nil => simp
  | cons a t ih => simp [ih, add_div]

/-- Helper: an in-range read of a `Fl.fin`-mapped list, `getD` form. -/
theorem getD_map_fin2 (l : List α) (k : ℕ) (hk : k < l.length) :
    (l.map Fl.fin).getD k Fl.nan = Fl.fin (l.getD k 0) := by
  rw [getD_map_fin l k hk]
  congr 1
  rw [List.getD_eq_getElem?_getD, List.getElem?_eq_getElem hk]
  rfl

/-- Helper: an in-range read of the grid built by mapping over
`List.range`. -/
theorem getD_map_range {β : Type} (f : ℕ → β) (n k : ℕ) (hk : k < n)
    (d : β) : ((List.range n).map f).getD k d = f k := by
  rw [List.getD_eq_getElem?_getD, List.getElem?_map, List.getElem?_range hk]
  rfl

/-- Helper: adjacent bin edges of a monotone edge list are ordered. -/
theorem chain_getD_le (l : List α) (hl : l.Chain' (· ≤ ·)) (j : ℕ)
    (hj : j + 1 < l.length) : l.getD j 0 ≤ l.getD (j + 1) 0 := by
  rw [List.chain'_iff_get] at hl
  have h := hl j (by omega)
  rw [List.getD_eq_getElem?_getD, List.getD_eq_getElem?_getD,
    List.getElem?_eq_getElem (by omega : j < l.length),
    List.getElem?_eq_getElem hj]
  simpa using h

/-- Helper: a value lying inside the covered window of a monotone edge
list falls into some bin `edge[j] ≤ v < edge[j+1]`. -/
theorem exists_bin : ∀ l : List α, l.Chain' (· ≤ ·) → ∀ v : α,
    l.getD 0 0 ≤ v → v < l.getD (l.length - 1) 0 →
    ∃ j, j + 1 < l.length ∧ l.getD j 0 ≤ v ∧ v < l.getD (j + 1) 0
  | [] => by
    intro _ v h0 h1
    simp only [List.getD] at h0 h1
    exact absurd (h0.trans_lt h1) (lt_irrefl _)
  | [a] => by
    intro _ v h0 h1
    simp only [List.getD_cons_zero, List.length_cons, List.length_nil] at h0 h1
    exact absurd (h0.trans_lt h1) (lt_irrefl _)
  | a :: b :: t => by
    intro hch v h0 h1
    by_cases hv : v < b
    · refine ⟨0, by simp, by simpa using h0, by simpa using hv⟩
    · obtain ⟨j, hj, hle, hlt⟩ :=
        exists_bin (b :: t) hch.tail v (by simpa using not_lt.mp hv)
          (by simpa [List.length_cons] using h1)
      exact ⟨j + 1, by simpa [List.length_cons] using Nat.succ_lt_succ hj,
        by simpa using hle, by simpa using hlt⟩

/-- C8: for every non-empty 2D point set lying fully inside the covered
window of monotone bin-edge sequences (of finite values), the density grid
returned by `eval_dens` has total probability mass exactly 1 (hence within
the spec's 1e-9 tolerance): the counts are normalized by the accumulated
volume, and the integral of the normalized grid over the covered rectangle
is the volume divided by itself. -/
theorem C8_dens_mass_one (points : List (α × α)) (xs ys : List α)
    (hne : points ≠ [])
    (hxs : xs.Chain' (· ≤ ·)) (hys : ys.Chain' (· ≤ ·))
    (hinx : ∀ p ∈ points, xs.getD 0 0 ≤ p.1 ∧ p.1 < xs.getD (xs.length - 1) 0)
    (hiny : ∀ p ∈ points, ys.getD 0 0 ≤ p.2 ∧ p.2 < ys.getD (ys.length - 1) 0) :
    dens_mass
      (eval_dens (points.map fun p => (Fl.fin p.1, Fl.fin p.2))
        (xs.map Fl.fin) (ys.map Fl.fin))
      (xs.map Fl.fin) (ys.map Fl.fin) = Fl.fin 1 := by
  set P : List (Fl α × Fl α) := points.map fun p => (Fl.fin p.1, Fl.fin p.2)
    with hP
  set X := xs.length - 1 with hX
  set Y := ys.length - 1 with hY
  set c : ℕ → ℕ → ℕ := fun i j =>
    cell_count P (xs.map Fl.fin) (ys.map Fl.fin) i j with hc
  set dx : ℕ → α := fun j => xs.getD (j + 1) 0 - xs.getD j 0 with hdx
  set dy : ℕ → α := fun i => ys.getD (i + 1) 0 - ys.getD i 0 with hdy
  have hXlt : ∀ j, j < X → j + 1 < xs.length := by
    intro j hj; omega
  have hYlt : ∀ i, i < Y → i + 1 < ys.length := by
    intro i hi; omega
  have hlocal : ∀ i ∈ List.range Y, ∀ j ∈ List.range X,
      local_vol P (xs.map Fl.fin) (ys.map Fl.fin) i j =
        Fl.fin ((c i j : α) * dx j * dy i) := by
    intro i hi j hj
    rw [List.mem_range] at hi hj
    rw [local_vol, getD_map_fin2 _ _ (by omega : j < xs.length),
      getD_map_fin2 _ _ (hXlt j hj), getD_map_fin2 _ _ (by omega : i < ys.length),
      getD_map_fin2 _ _ (hYlt i hi)]
    simp [hc, hdx, hdy]
  set V : α := ((List.range Y).map fun i =>
    ((List.range X).map fun j => (c i j : α) * dx j * dy i).sum).sum with hV
  have hVfold : eval_dens_vol P (xs.map Fl.fin) (ys.map Fl.fin) = Fl.fin V := by
    rw [eval_dens_vol]
    simp only [List.length_map]
    rw [foldl2_add_fin_of _ (fun i j => (c i j : α) * dx j * dy i) _ _
      hlocal 0]
    rw [foldl2_add_eq_sum, zero_add]
  obtain ⟨p, hp⟩ : ∃ p, p ∈ points := by
    cases points with
    | nil => exact absurd rfl hne
    | cons a t => exact ⟨a, by simp⟩
  obtain ⟨j0, hj0, hxle, hxlt⟩ := exists_bin xs hxs p.1 (hinx p hp).1 (hinx p hp).2
  obtain ⟨i0, hi0, hyle, hylt⟩ := exists_bin ys hys p.2 (hiny p hp).1 (hiny p hp).2
  have hj0X : j0 < X := by omega
  have hi0Y : i0 < Y := by omega
  have hcpos : 1 ≤ c i0 j0 := by
    have hmem : (Fl.fin p.1, Fl.fin p.2) ∈ P := List.mem_map_of_mem _ hp
    have hpred : (get_points_in_range (Fl.fin p.1) (xs.map Fl.fin) j0 &&
        get_points_in_range (Fl.fin p.2) (ys.map Fl.fin) i0) = true := by
      rw [get_points_in_range, get_points_in_range,
        getD_map_fin2 _ _ (by omega : j0 < xs.length),
        getD_map_fin2 _ _ hj0, getD_map_fin2 _ _ (by omega : i0 < ys.length),
        getD_map_fin2 _ _ hi0]
      simp only [Fl.leb_fin_fin, Fl.ltb_fin_fin, Bool.and_eq_true,
        decide_eq_true_eq]
      exact ⟨⟨hxle, hxlt⟩, hyle, hylt⟩
    have hmemf : (Fl.fin p.1, Fl.fin p.2) ∈ P.filter (fun q =>
        get_points_in_range q.1 (xs.map Fl.fin) j0 &&
          get_points_in_range q.2 (ys.map Fl.fin) i0) :=
      List.mem_filter.mpr ⟨hmem, hpred⟩
    have := List.length_pos.mpr (List.ne_nil_of_mem hmemf)
    simpa [hc, cell_count] using this
  have hdxpos : 0 < dx j0 := sub_pos.mpr (hxle.trans_lt hxlt)
  have hdypos : 0 < dy i0 := sub_pos.mpr (hyle.trans_lt hylt)
  have hterm_nonneg : ∀ i ∈ List.range Y, ∀ j ∈ List.range X,
      0 ≤ (c i j : α) * dx j * dy i := by
    intro i hi j hj
    rw [List.mem_range] at hi hj
    have h1 : (0 : α) ≤ (c i j : α) := Nat.cast_nonneg _
    have h2 : 0 ≤ dx j := sub_nonneg.mpr (chain_getD_le xs hxs j (hXlt j hj))
    have h3 : 0 ≤ dy i := sub_nonneg.mpr (chain_getD_le ys hys i (hYlt i hi))
    exact mul_nonneg (mul_nonneg h1 h2) h3
  have hVpos : 0 < V := by
    have hterm0 : 0 < (c i0 j0 : α) * dx j0 * dy i0 := by
      have : (0 : α) < (c i0 j0 : α) := by
        have := (Nat.one_le_cast (α := α)).mpr hcpos
        linarith
      exact mul_pos (mul_pos this hdxpos) hdypos
    have hinner : (c i0 j0 : α) * dx j0 * dy i0 ≤
        ((List.range X).map fun j => (c i0 j : α) * dx j * dy i0).sum := by
      refine List.single_le_sum (fun x hx => ?_) _ ?_
      · obtain ⟨j, hj, rfl⟩ := List.mem_map.mp hx
        exact hterm_nonneg i0 (List.mem_range.mpr hi0Y) j hj
      · exact List.mem_map_of_mem _ (List.mem_range.mpr hj0X)
    have houter : ((List.range X).map fun j =>
        (c i0 j : α) * dx j * dy i0).sum ≤ V := by
      refine List.single_le_sum (fun x hx => ?_) _ ?_
      · obtain ⟨i, hi, rfl⟩ := List.mem_map.mp hx
        exact List.sum_nonneg fun y hy => by
          obtain ⟨j, hj, rfl⟩ := List.mem_map.mp hy
          exact hterm_nonneg i hi j hj
      · exact List.mem_map_of_mem _ (List.mem_range.mpr hi0Y)
    linarith
  have hVne : V ≠ 0 := ne_of_gt hVpos
  have hcell : ∀ i ∈ List.range Y, ∀ j ∈ List.range X,
      ((eval_dens P (xs.map Fl.fin) (ys.map Fl.fin)).getD i []).getD j Fl.nan
        = Fl.fin ((c i j : α) / V) := by
    intro i hi j hj
    rw [List.mem_range] at hi hj
    rw [eval_dens]
    simp only [List.length_map, hVfold]
    rw [getD_map_range _ _ _ hi, getD_map_range _ _ _ hj,
      Fl.div_fin_fin_of_ne hVne]
  have hmass : ∀ i ∈ List.range Y, ∀ j ∈ List.range X,
      ((((eval_dens P (xs.map Fl.fin) (ys.map Fl.fin)).getD i []).getD j
          Fl.nan).mul
        (((xs.map Fl.fin).getD (j + 1) Fl.nan).sub
          ((xs.map Fl.fin).getD j Fl.nan))).mul
        (((ys.map Fl.fin).getD (i + 1) Fl.nan).sub
          ((ys.map Fl.fin).getD i Fl.nan)) =
      Fl.fin ((c i j : α) / V * dx j * dy i) := by
    intro i hi j hj
    have hi2 := List.mem_range.mp hi
    have hj2 := List.mem_range.mp hj
    rw [hcell i hi j hj, getD_map_fin2 _ _ (by omega : j < xs.length),
      getD_map_fin2 _ _ (hXlt j hj2), getD_map_fin2 _ _ (by omega : i < ys.length),
      getD_map_fin2 _ _ (hYlt i hi2)]
    simp [hdx, hdy]
  rw [dens_mass]
  simp only [List.length_map]
  rw [foldl2_add_fin_of _ (fun i j => (c i j : α) / V * dx j * dy i) _ _
    hmass 0]
  rw [foldl2_add_eq_sum, zero_add, Fl.fin.injEq]
  have hmaps : ∀ i ∈ List.range Y,
      ((List.range X).map fun j => (c i j : α) / V * dx j * dy i).sum =
        ((List.range X).map fun j => (c i j : α) * dx j * dy i).sum / V := by
    intro i _
    rw [← sum_map_div]
    congr 1
    refine List.map_congr_left fun j _ => ?_
    rw [div_mul_eq_mul_div, div_mul_eq_mul_div]
  calc ((List.range Y).map fun i =>
        ((List.range X).map fun j => (c i j : α) / V * dx j * dy i).sum).sum
      = ((List.range Y).map fun i =>
        (((List.range X).map fun j => (c i j : α) * dx j * dy i).sum / V)).sum := by
        exact congrArg List.sum (List.map_congr_left hmaps)
    _ = V / V := by rw [sum_map_div, ← hV]
    _ = 1 := div_self hVne

/-- Witness for C8: a single point `(1/2, 1/2)` inside the unit window
with edges `[0, 1]` on both axes has total density mass exactly 1. -/
theorem C8_dens_mass_one_witness :
    dens_mass
      (eval_dens [((Fl.fin (1 / 2) : Fl ℚ), Fl.fin (1 / 2))]
        [Fl.fin 0, Fl.fin 1] [Fl.fin 0, Fl.fin 1])
      [Fl.fin 0, Fl.fin 1] [Fl.fin 0, Fl.fin 1] = Fl.fin 1 := by
  have h := C8_dens_mass_one (α := ℚ) [(1 / 2, 1 / 2)] [0, 1] [0, 1]
    (by simp)
    (by simp)
    (by simp)
    (by intro p hp; simp only [List.mem_singleton] at hp; subst hp; norm_num)
    (by intro p hp; simp only [List.mem_singleton] at hp; subst hp; norm_num)
  simpa using h

end DensMass

section Monotonic

/-- Helper: transitivity of successful IEEE comparisons. -/
theorem Fl.leb_trans {α : Type} [LinearOrderedField α] {a b c : Fl α}
    (h1 : a.leb b = true) (h2 : b.leb c = true) : a.leb c = true := by
  cases a <;> cases b <;> cases c <;> simp_all [Fl.leb]
  exact le_trans h1 h2

/-- Helper: the per-point filter decision of points_cloud.__get_mask is
monotone in the filter parameters (tightening any bound can only turn the
decision from keep to drop). -/
theorem point_mask_mono (p p' : PointsCloudParams)
    (h1 : (p.min_depth_confidence).leb p'.min_depth_confidence = true)
    (h2 : (p.min_z).leb p'.min_z = true)
    (h3 : (p'.max_z).leb p.max_z = true)
    (h4 : (p'.max_z_distance).leb p.max_z_distance = true)
    (conf : Fl ℝ) (pt : V3 ℝ) (h : point_mask p' conf pt = true) :
    point_mask p conf pt = true := by
  simp only [point_mask] at h ⊢
  rw [Bool.and_eq_true, Bool.and_eq_true, Bool.and_eq_true] at h
  obtain ⟨⟨⟨hc, hz⟩, hmin⟩, hmax⟩ := h
  rw [Bool.and_eq_true, Bool.and_eq_true, Bool.and_eq_true]
  exact ⟨⟨⟨Fl.leb_trans h1 hc, Fl.leb_trans hz h4⟩, Fl.leb_trans h2 hmin⟩,
    Fl.leb_trans hmax h3⟩

/-- C7: filtering in build_points_cloud is monotonic.  For a fixed scans
dictionary and frame sequence, if `p'` tightens `p` (higher
`min_depth_confidence`, higher `min_z`, lower `max_z`, lower
`max_z_distance` — the `leb` hypotheses, which also allow the infinite
defaults), the reconstruction under `p'` yields at most as many points as
under `p`. -/
theorem C7_filtering_monotonic (scans : String → Scan) (frames : List Frame)
    (p p' : PointsCloudParams)
    (h1 : (p.min_depth_confidence).leb p'.min_depth_confidence = true)
    (h2 : (p.min_z).leb p'.min_z = true)
    (h3 : (p'.max_z).leb p.max_z = true)
    (h4 : (p'.max_z_distance).leb p.max_z_distance = true) :
    cloud_size (build_points_cloud scans frames p') ≤
      cloud_size (build_points_cloud scans frames p) := by
  cases frames with
  | nil => simp [build_points_cloud, cloud_size]
  | cons f0 rest =>
    simp only [build_points_cloud, cloud_size, Option.elim]
    rw [List.length_flatMap, List.length_flatMap]
    apply List.sum_le_sum
    intro f _
    simp only [Function.comp_apply, get_points, List.length_map]
    refine List.Sublist.length_le (List.monotone_filter_right _ ?_)
    intro ij hij
    simp only [pixel_keep] at hij ⊢
    exact point_mask_mono p p' h1 h2 h3 h4 _ _ hij

/-- Witness for C7: tightening the default parameters to
`(min_conf, min_z, max_z, max_z_dist) = (4, 0, 5, 7)` on the scenario
input does not increase the point count. -/
theorem C7_filtering_monotonic_witness :
    cloud_size (build_points_cloud scenario_scans [scenario_frame]
      ⟨Fl.fin 4, Fl.fin 0, Fl.fin 5, Fl.fin 7⟩) ≤
      cloud_size (build_points_cloud scenario_scans [scenario_frame]
        default_params) := by
  refine C7_filtering_monotonic scenario_scans [scenario_frame]
    default_params ⟨Fl.fin 4, Fl.fin 0, Fl.fin 5, Fl.fin 7⟩ ?_ ?_ ?_ ?_
  · simp only [default_params, Fl.leb_fin_fin, decide_eq_true_eq]
    norm_num
  · rfl
  · rfl
  · rfl

end Monotonic

/-! ## The spec §8 reconstruction scenario (C2)

With position `(0,0,0)` and view elevation 0 the look vector is the zero
vector, so `__get_look_angle` computes `0.0 / 0.0 = nan`; the nan
propagates through the rotation quaternion and matrix into every
reconstructed point, every z-distance comparison with nan is false, and
the mask drops all pixels: the reconstruction returns zero points. -/

section Scenario

/-- Helper: matrix application to the all-nan vector is all-nan. -/
theorem mat_apply_nan_vec (m : M3) :
    mat_apply m (Fl.nan, Fl.nan, Fl.nan) = (Fl.nan, Fl.nan, Fl.nan) := by
  obtain ⟨⟨a, b, c⟩, ⟨d, e, f⟩, ⟨g, h, i⟩⟩ := m
  simp [mat_apply]

/-- Helper: application of an all-nan matrix is all-nan. -/
theorem mat_apply_nan_mat (v : V3 ℝ) :
    mat_apply ((Fl.nan, Fl.nan, Fl.nan), (Fl.nan, Fl.nan, Fl.nan),
      (Fl.nan, Fl.nan, Fl.nan)) v = (Fl.nan, Fl.nan, Fl.nan) := by
  simp [mat_apply]

/-- Helper: the look vector of the scenario scan is the zero vector. -/
theorem scenario_look : get_look scenario_scan = (Fl.fin 0, Fl.fin 0, Fl.fin 0) := by
  simp [get_look, get_elev, scenario_scan]

/-- Helper: the look angle of the zero look vector is nan (`0.0/0.0`). -/
theorem scenario_look_angle :
    get_look_angle (Fl.fin 0, Fl.fin 0, Fl.fin 0) = Fl.nan := by
  rw [get_look_angle]
  simp

/-- Helper: the look rotation axis of the zero look vector is `(0, 1, 0)`. -/
theorem scenario_look_axis :
    get_look_rot_axis (Fl.fin 0, Fl.fin 0, Fl.fin 0) = (Fl.fin 0, Fl.fin 1, Fl.fin 0) := by
  rw [get_look_rot_axis]
  have hcond : (Fl.fin (1 / 10000000000 : ℝ)).ltb ((Fl.fin (0 : ℝ)).abs) = false := by
    simp only [Fl.abs_fin, abs_zero, Fl.ltb_fin_fin, decide_eq_false_iff_not]
    norm_num
  simp [hcond]

/-- Helper: the look rotation quaternion of the scenario is all-nan. -/
theorem scenario_look_rot :
    get_look_rot (Fl.fin 0, Fl.fin 0, Fl.fin 0) =
      (Fl.nan, Fl.nan, Fl.nan, Fl.nan) := by
  rw [get_look_rot, scenario_look_axis, scenario_look_angle]
  rw [rotation_from_rotvec]
  simp

/-- Helper: the composed rotation quaternion of the scenario is all-nan. -/
theorem scenario_rot :
    get_rot scenario_scan (Fl.fin 0, Fl.fin 0, Fl.fin 0) =
      (Fl.nan, Fl.nan, Fl.nan, Fl.nan) := by
  rw [get_rot, scenario_look_rot, quat_mul]
  simp

/-- Helper: applying an all-nan rotation quaternion gives the all-nan
point. -/
theorem quat_apply_nan_quat (v : V3 ℝ) :
    quat_apply (Fl.nan, Fl.nan, Fl.nan, Fl.nan) v = (Fl.nan, Fl.nan, Fl.nan) := by
  rw [quat_apply, quat_to_matrix]
  simp only [Fl.nan_mul, Fl.mul_nan, Fl.nan_add, Fl.add_nan, Fl.nan_sub,
    Fl.sub_nan]
  exact mat_apply_nan_mat v

/-- Helper: every reconstructed point of the scenario frame is all-nan. -/
theorem scenario_pixel_point (i j : ℕ) :
    pixel_point scenario_scan scenario_frame (Fl.fin 0) i j =
      (Fl.nan, Fl.nan, Fl.nan) := by
  simp only [pixel_point, pixel_pre, scenario_look, scenario_rot,
    quat_apply_nan_quat, v3_add, Fl.nan_add]
  rw [quat_apply]
  exact mat_apply_nan_vec _

/-- Helper: every pixel of the scenario frame is dropped by the mask (the
z-distance of an all-nan point compares false against every bound). -/
theorem scenario_pixel_keep (i j : ℕ) :
    pixel_keep default_params scenario_scan scenario_frame (Fl.fin 0) i j =
      false := by
  rw [pixel_keep, scenario_pixel_point, point_mask]
  simp

/-- Helper: the scenario reconstruction returns zero points, for every
scans dictionary that maps the frame's scan name to the scenario scan. -/
theorem scenario_points_empty (scansf : String → Scan)
    (hs : scansf "s" = scenario_scan) :
    build_points_cloud scansf [scenario_frame] default_params = some [] := by
  rw [build_points_cloud]
  simp only [List.flatMap_cons, List.flatMap_nil, List.append_nil]
  rw [show scenario_frame.scan = "s" from rfl, hs,
    show scenario_frame.time = Fl.fin 0 from rfl]
  rw [get_points]
  rw [List.filter_eq_nil_iff.mpr ?_]
  · rfl
  · intro ij _
    simp [scenario_pixel_keep]

/-- C2 counterexample: the spec §8 scenario (single scan at the origin
with zero elevation, single frame whose only confident pixel is the
center pixel at depth 1.0) does not yield exactly one point. -/
theorem C2_counterexample :
    cloud_size (build_points_cloud scenario_scans [scenario_frame]
      default_params) ≠ 1 := by
  rw [scenario_points_empty scenario_scans rfl]
  simp [cloud_size]

/-- C2 amended: on the spec §8 scenario the reconstruction returns zero
points: the look vector `eye - elev` is `(0,0,0)`, `__get_look_angle`
divides `0.0` by `0.0` producing nan, the rotation becomes all-nan, every
back-projected point is all-nan, and the nan z-distance fails every mask
comparison. -/
theorem C2_scenario_zero_points :
    build_points_cloud scenario_scans [scenario_frame] default_params =
      some [] :=
  scenario_points_empty scenario_scans rfl

end Scenario

/-! ## Sentinel behaviour and Scan mutation of the objectives (C4, C10) -/

section Sentinels

/-- C4: when reconstruction (after the parameter write) yields zero
points, every cost function returns its large finite sentinel instead of
raising: `multiple_projections_cost` returns exactly 1e+6,
`local_plane_uniform_cost` returns 1e+8, `points_in_neighborhood_cost`
and `multiple_projections_interp_cost` return 1e+6. -/
theorem C4_cost_sentinels (x : List ℝ) (a : ObjectiveArgs)
    (dist_count : ℕ) (shuffled_inds : List ℕ) (base_points : List (V3 ℝ))
    (ip2 : ℕ → ℕ → Fl ℝ → Fl ℝ) (ip1 : Fl ℝ → Fl ℝ → Fl ℝ)
    (hz : build_points_cloud (update_scans x a.scans_keys a.scans) a.frames
      a.params = some []) :
    (multiple_projections_cost x a dist_count shuffled_inds).map Prod.snd =
        some (Fl.fin 1000000) ∧
      (local_plane_uniform_cost x a base_points).map Prod.snd =
        some (Fl.fin 100000000) ∧
      (points_in_neighborhood_cost x a ip2).map Prod.snd =
        some (Fl.fin 1000000) ∧
      (multiple_projections_interp_cost x a dist_count shuffled_inds
        ip1).map Prod.snd = some (Fl.fin 1000000) := by
  refine ⟨?_, ?_, ?_, ?_⟩
  · rw [multiple_projections_cost, hz]
    simp
  · rw [local_plane_uniform_cost, hz]
    simp
  · rw [points_in_neighborhood_cost, hz]
    simp
  · rw [multiple_projections_interp_cost, hz]
    simp

/-- Witness for C4: the parameter vector `(0,0,0,0,0)` written into the
scenario base scan reproduces the degenerate spec §8 scenario, whose
reconstruction yields zero points; all four costs return their
sentinels. -/
theorem C4_cost_sentinels_witness :
    (multiple_projections_cost [0, 0, 0, 0, 0]
        ⟨fun _ => scenario_base_scan, ["s"], [scenario_frame],
          default_params⟩ 10 []).map Prod.snd = some (Fl.fin 1000000) ∧
      (local_plane_uniform_cost [0, 0, 0, 0, 0]
        ⟨fun _ => scenario_base_scan, ["s"], [scenario_frame],
          default_params⟩ []).map Prod.snd = some (Fl.fin 100000000) ∧
      (points_in_neighborhood_cost [0, 0, 0, 0, 0]
        ⟨fun _ => scenario_base_scan, ["s"], [scenario_frame],
          default_params⟩ fun _ _ _ => Fl.fin 0).map Prod.snd =
        some (Fl.fin 1000000) ∧
      (multiple_projections_interp_cost [0, 0, 0, 0, 0]
        ⟨fun _ => scenario_base_scan, ["s"], [scenario_frame],
          default_params⟩ 10 [] fun _ _ => Fl.fin 0).map Prod.snd =
        some (Fl.fin 1000000) := by
  have hupd : update_scans [0, 0, 0, 0, 0] ["s"]
      (fun _ => scenario_base_scan) "s" = scenario_scan := by
    simp [update_scans, scenario_base_scan, scenario_scan]
  exact C4_cost_sentinels [0, 0, 0, 0, 0]
    ⟨fun _ => scenario_base_scan, ["s"], [scenario_frame], default_params⟩
    10 [] [] (fun _ _ _ => Fl.fin 0) (fun _ _ => Fl.fin 0)
    (scenario_points_empty _ hupd)

/-- C10: every cost function writes the candidate parameter vector into
the Scan entries before the zero-points check, so on the sentinel path the
returned (mutated) scans dictionary is `update_scans x scans_keys scans`,
not the original dictionary: the sentinel path is not atomic with respect
to Scan state. -/
theorem C10_scans_mutated_on_sentinel (x : List ℝ) (a : ObjectiveArgs)
    (dist_count : ℕ) (shuffled_inds : List ℕ) (base_points : List (V3 ℝ))
    (ip2 : ℕ → ℕ → Fl ℝ → Fl ℝ) (ip1 : Fl ℝ → Fl ℝ → Fl ℝ)
    (hz : build_points_cloud (update_scans x a.scans_keys a.scans) a.frames
      a.params = some []) :
    multiple_projections_cost x a dist_count shuffled_inds =
        some (update_scans x a.scans_keys a.scans, Fl.fin 1000000) ∧
      local_plane_uniform_cost x a base_points =
        some (update_scans x a.scans_keys a.scans, Fl.fin 100000000) ∧
      points_in_neighborhood_cost x a ip2 =
        some (update_scans x a.scans_keys a.scans, Fl.fin 1000000) ∧
      multiple_projections_interp_cost x a dist_count shuffled_inds ip1 =
        some (update_scans x a.scans_keys a.scans, Fl.fin 1000000) := by
  refine ⟨?_, ?_, ?_, ?_⟩
  · rw [multiple_projections_cost, hz]
    simp
  · rw [local_plane_uniform_cost, hz]
    simp
  · rw [points_in_neighborhood_cost, hz]
    simp
  · rw [multiple_projections_interp_cost, hz]
    simp

/-- Witness for C10: on the concrete sentinel input, the returned scans
dictionary is the mutated one (which differs from the original: the
written scan's position is `(0,0,0)`, the base scan's was `(5,6,7)`). -/
theorem C10_scans_mutated_on_sentinel_witness :
    multiple_projections_cost [0, 0, 0, 0, 0]
        ⟨fun _ => scenario_base_scan, ["s"], [scenario_frame],
          default_params⟩ 10 [] =
      some (update_scans [0, 0, 0, 0, 0] ["s"] (fun _ => scenario_base_scan),
        Fl.fin 1000000) := by
  have hupd : update_scans [0, 0, 0, 0, 0] ["s"]
      (fun _ => scenario_base_scan) "s" = scenario_scan := by
    simp [update_scans, scenario_base_scan, scenario_scan]
  exact (C10_scans_mutated_on_sentinel [0, 0, 0, 0, 0]
    ⟨fun _ => scenario_base_scan, ["s"], [scenario_frame], default_params⟩
    10 [] [] (fun _ _ _ => Fl.fin 0) (fun _ _ => Fl.fin 0)
    (scenario_points_empty _ hupd)).1

end Sentinels

/-! ## Size bound and frame-order invariance of reconstruction (C6)

The point count of a frame is independent of the time base: the
time-dependent spin is a rotation about z, which preserves both `point.z`
and `‖point.xy‖` (the only point-dependent mask inputs), and its all-nan
degenerate cases drop the point under every time base.  The argument needs
that the pre-rotation point has no infinite coordinate (`Fl.fon`), which
the `frame_valid` hypotheses guarantee. -/

section Reorder

/-- Helper: finite values are not infinite. -/
theorem Fl.fon_fin (x : ℝ) : (Fl.fin x).fon = true := rfl

/-- Helper: nan is not infinite. -/
theorem Fl.fon_nan : (Fl.nan : Fl ℝ).fon = true := rfl

/-- Helper: a non-infinite non-finite value is nan. -/
theorem Fl.eq_nan_of_fon {a : Fl ℝ} (ha : a.fon = true)
    (hfin : a.is_fin = false) : a = Fl.nan := by
  cases a <;> simp_all [Fl.fon, Fl.is_fin]

/-- Helper: addition of non-infinite values is non-infinite. -/
theorem Fl.fon_add {a b : Fl ℝ} (ha : a.fon = true) (hb : b.fon = true) :
    (a.add b).fon = true := by
  cases a <;> cases b <;> simp_all [Fl.fon, Fl.add]

/-- Helper: subtraction of non-infinite values is non-infinite. -/
theorem Fl.fon_sub {a b : Fl ℝ} (ha : a.fon = true) (hb : b.fon = true) :
    (a.sub b).fon = true := by
  cases a <;> cases b <;> simp_all [Fl.fon, Fl.sub]

/-- Helper: multiplication of non-infinite values is non-infinite. -/
theorem Fl.fon_mul {a b : Fl ℝ} (ha : a.fon = true) (hb : b.fon = true) :
    (a.mul b).fon = true := by
  cases a <;> cases b <;> simp_all [Fl.fon, Fl.mul]

/-- Helper: negation of a non-infinite value is non-infinite. -/
theorem Fl.fon_neg {a : Fl ℝ} (ha : a.fon = true) : a.neg.fon = true := by
  cases a <;> simp_all [Fl.fon, Fl.neg]

/-- Helper: the square root of a non-infinite value is non-infinite. -/
theorem Fl.fon_sqrt {a : Fl ℝ} (ha : a.fon = true) : a.sqrt.fon = true := by
  cases a with
  | nan => rfl
  | inf => simp [Fl.fon] at ha
  | ninf => simp [Fl.fon] at ha
  | fin x =>
    rw [Fl.sqrt]
    split <;> rfl

/-- Helper: sin never produces an infinity. -/
theorem Fl.fon_sin (a : Fl ℝ) : a.sin.fon = true := by cases a <;> rfl

/-- Helper: cos never produces an infinity. -/
theorem Fl.fon_cos (a : Fl ℝ) : a.cos.fon = true := by cases a <;> rfl

/-- Helper: tan never produces an infinity. -/
theorem Fl.fon_tan (a : Fl ℝ) : a.tan.fon = true := by cases a <;> rfl

/-- Helper: arctan never produces an infinity (`arctan(±inf) = ±π/2`). -/
theorem Fl.fon_arctan (a : Fl ℝ) : a.arctan.fon = true := by cases a <;> rfl

/-- Helper: dividing a non-infinite value by a nonzero finite value stays
non-infinite. -/
theorem Fl.fon_div_fin {a : Fl ℝ} {y : ℝ} (ha : a.fon = true) (hy : y ≠ 0) :
    (a.div (Fl.fin y)).fon = true := by
  cases a <;> simp_all [Fl.fon, Fl.div, hy]

/-- Helper: squaring a non-infinite value stays non-infinite. -/
theorem Fl.fon_sq {a : Fl ℝ} (ha : a.fon = true) : a.sq.fon = true :=
  Fl.fon_mul ha ha

/-- Helper: an element read from a depth array whose entries are all
non-infinite is non-infinite (the out-of-range default is nan). -/
theorem fon_getD (l : List (Fl ℝ)) (h : l.all Fl.fon = true) (n : ℕ) :
    (l.getD n Fl.nan).fon = true := by
  rcases lt_or_ge n l.length with hn | hn
  · rw [List.getD_eq_getElem?_getD, List.getElem?_eq_getElem hn]
    exact List.all_eq_true.mp h _ (List.getElem_mem hn)
  · rw [List.getD_eq_default _ _ hn]
    rfl

/-- Helper: quaternion multiplication of non-infinite quaternions is
non-infinite. -/
theorem fon_quat_mul (p q : Quat)
    (hp1 : p.1.fon = true) (hp2 : p.2.1.fon = true)
    (hp3 : p.2.2.1.fon = true) (hp4 : p.2.2.2.fon = true)
    (hq1 : q.1.fon = true) (hq2 : q.2.1.fon = true)
    (hq3 : q.2.2.1.fon = true) (hq4 : q.2.2.2.fon = true) :
    (quat_mul p q).1.fon = true ∧ (quat_mul p q).2.1.fon = true ∧
      (quat_mul p q).2.2.1.fon = true ∧ (quat_mul p q).2.2.2.fon = true := by
  obtain ⟨px, py, pz, pw⟩ := p
  obtain ⟨qx, qy, qz, qw⟩ := q
  simp only [quat_mul]
  refine ⟨?_, ?_, ?_, ?_⟩ <;>
    (repeat
      first
      | apply Fl.fon_add
      | apply Fl.fon_sub
      | apply Fl.fon_mul
      | assumption)

/-- Helper: applying a non-infinite rotation quaternion to a non-infinite
vector gives a non-infinite vector. -/
theorem fon_quat_apply (q : Quat) (v : V3 ℝ)
    (h1 : q.1.fon = true) (h2 : q.2.1.fon = true)
    (h3 : q.2.2.1.fon = true) (h4 : q.2.2.2.fon = true)
    (hv1 : v.1.fon = true) (hv2 : v.2.1.fon = true) (hv3 : v.2.2.fon = true) :
    (quat_apply q v).1.fon = true ∧ (quat_apply q v).2.1.fon = true ∧
      (quat_apply q v).2.2.fon = true := by
  obtain ⟨x, y, z, w⟩ := q
  obtain ⟨a, b, c⟩ := v
  simp only [quat_apply, quat_to_matrix, mat_apply]
  refine ⟨?_, ?_, ?_⟩ <;>
    (repeat
      first
      | apply Fl.fon_add
      | apply Fl.fon_sub
      | apply Fl.fon_mul
      | apply Fl.fon_neg
      | exact Fl.fon_fin _
      | assumption)

/-- Helper: the from_rotvec quaternion of a non-infinite rotation vector
is non-infinite. -/
theorem fon_rotation_from_rotvec (v : V3 ℝ)
    (h1 : v.1.fon = true) (h2 : v.2.1.fon = true) (h3 : v.2.2.fon = true) :
    (rotation_from_rotvec v).1.fon = true ∧
      (rotation_from_rotvec v).2.1.fon = true ∧
      (rotation_from_rotvec v).2.2.1.fon = true ∧
      (rotation_from_rotvec v).2.2.2.fon = true := by
  obtain ⟨a, b, c⟩ := v
  simp only [rotation_from_rotvec]
  have hθ : ((((Fl.sq a).add (Fl.sq b)).add (Fl.sq c)).sqrt).fon = true :=
    Fl.fon_sqrt (Fl.fon_add (Fl.fon_add (Fl.fon_sq h1) (Fl.fon_sq h2))
      (Fl.fon_sq h3))
  set θ := (((Fl.sq a).add (Fl.sq b)).add (Fl.sq c)).sqrt with hθdef
  have hscale : (if θ.leb (Fl.fin (1 / 1000)) then
      ((Fl.fin (1 / 2)).sub ((θ.mul θ).div (Fl.fin 48))).add
        ((((θ.mul θ)).mul (θ.mul θ)).div (Fl.fin 3840))
      else (Fl.sin (θ.div (Fl.fin 2))).div θ).fon = true := by
    split
    · exact Fl.fon_add
        (Fl.fon_sub (Fl.fon_fin _)
          (Fl.fon_div_fin (Fl.fon_mul hθ hθ) (by norm_num)))
        (Fl.fon_div_fin (Fl.fon_mul (Fl.fon_mul hθ hθ) (Fl.fon_mul hθ hθ))
          (by norm_num))
    · rename_i hcond
      cases hθv : θ with
      | nan => rw [Fl.div_nan]; rfl
      | inf => rw [hθv] at hθ; simp [Fl.fon] at hθ
      | ninf => rw [hθv] at hθ; simp [Fl.fon] at hθ
      | fin t =>
        have ht : t ≠ 0 := by
          rw [hθv] at hcond
          simp only [Fl.leb_fin_fin, decide_eq_true_eq] at hcond
          intro h0
          exact hcond (by rw [h0]; norm_num)
        exact Fl.fon_div_fin (Fl.fon_sin _) ht
  exact ⟨Fl.fon_mul hscale h1, Fl.fon_mul hscale h2, Fl.fon_mul hscale h3,
    Fl.fon_cos _⟩

/-- Helper: the look rotation axis of a look vector with non-infinite
horizontal components is non-infinite. -/
theorem fon_look_rot_axis (look : V3 ℝ)
    (h1 : look.1.fon = true) (h2 : look.2.1.fon = true) :
    (get_look_rot_axis look).1.fon = true ∧
      (get_look_rot_axis look).2.1.fon = true ∧
      (get_look_rot_axis look).2.2.fon = true := by
  rw [get_look_rot_axis]
  split
  · rename_i hc
    have hy : ∃ y : ℝ, look.2.1 = Fl.fin y ∧ y ≠ 0 := by
      cases hl : look.2.1 with
      | nan => rw [hl] at hc; simp [Fl.abs, Fl.ltb] at hc
      | inf => rw [hl] at h2; simp [Fl.fon] at h2
      | ninf => rw [hl] at h2; simp [Fl.fon] at h2
      | fin y =>
        refine ⟨y, rfl, ?_⟩
        rw [hl] at hc
        simp only [Fl.abs_fin, Fl.ltb_fin_fin, decide_eq_true_eq] at hc
        intro h0
        rw [h0] at hc
        norm_num at hc
    obtain ⟨y, hl, hy0⟩ := hy
    have hslope : ((look.1.neg).div look.2.1).fon = true := by
      rw [hl]
      exact Fl.fon_div_fin (Fl.fon_neg h1) hy0
    cases hs : (look.1.neg).div look.2.1 with
    | nan =>
      simp only [hs, Fl.nan_mul, Fl.mul_nan, Fl.add_nan, Fl.sqrt_nan,
        Fl.div_nan]
      exact ⟨rfl, rfl, rfl⟩
    | inf => rw [hs] at hslope; simp [Fl.fon] at hslope
    | ninf => rw [hs] at hslope; simp [Fl.fon] at hslope
    | fin s =>
      simp only [hs, Fl.mul_fin_fin, Fl.add_fin_fin]
      rw [Fl.sqrt_fin_of_nonneg (by nlinarith [mul_self_nonneg s] : (0 : ℝ) ≤ 1 + s * s)]
      have hsq : Real.sqrt (1 + s * s) ≠ 0 := by
        have : (0 : ℝ) < 1 + s * s := by nlinarith [mul_self_nonneg s]
        exact ne_of_gt (Real.sqrt_pos.mpr this)
      rw [Fl.div_fin_fin_of_ne hsq]
      exact ⟨rfl, rfl, rfl⟩
  · exact ⟨rfl, rfl, rfl⟩

/-- Helper: the look angle is never infinite (arctan absorbs even the
infinite slope of a vertical look vector). -/
theorem fon_get_look_angle (look : V3 ℝ) :
    (get_look_angle look).fon = true := by
  rw [get_look_angle]
  exact Fl.fon_add (Fl.fon_arctan _) (Fl.fon_fin _)

/-- Helper: the composed per-scan rotation quaternion is non-infinite for
non-infinite look vectors. -/
theorem fon_get_rot (scan : Scan) (look : V3 ℝ)
    (h1 : look.1.fon = true) (h2 : look.2.1.fon = true) :
    (get_rot scan look).1.fon = true ∧ (get_rot scan look).2.1.fon = true ∧
      (get_rot scan look).2.2.1.fon = true ∧
      (get_rot scan look).2.2.2.fon = true := by
  rw [get_rot]
  have haxis := fon_look_rot_axis look h1 h2
  have hangle := fon_get_look_angle look
  have hlrot := fon_rotation_from_rotvec
    ((get_look_angle look).mul (get_look_rot_axis look).1,
     (get_look_angle look).mul (get_look_rot_axis look).2.1,
     (get_look_angle look).mul (get_look_rot_axis look).2.2)
    (Fl.fon_mul hangle haxis.1) (Fl.fon_mul hangle haxis.2.1)
    (Fl.fon_mul hangle haxis.2.2)
  rw [get_look_rot]
  exact fon_quat_mul _ _ hlrot.1 hlrot.2.1 hlrot.2.2.1 hlrot.2.2.2
    (Fl.fon_fin _) (Fl.fon_fin _) (Fl.fon_sin _) (Fl.fon_cos _)

/-- Helper: the pixel offsets are always finite values. -/
theorem w_h_fin (i j : ℕ) (scan : Scan) :
    get_w_and_h i j scan =
      (Fl.fin ((j : ℝ) - (scan.depth_width : ℝ) / 2),
       Fl.fin ((i : ℝ) - (scan.depth_height : ℝ) / 2)) := by
  rw [get_w_and_h, Fl.div_fin_fin_of_ne (two_ne_zero),
    Fl.div_fin_fin_of_ne (two_ne_zero), Fl.sub_fin_fin, Fl.sub_fin_fin]

/-- Helper: the sensor-plane depth correction never produces an infinity
for non-infinite depth, a positive image width, and a finite nonnegative
`proj_square` (the cosine of an arctan is positive, and infinite or nan
focal lengths collapse to nan by IEEE rules). -/
theorem fon_depth_sensor (scan : Scan) (tan depth : Fl ℝ)
    (htan : tan.fon = true) (hd : depth.fon = true)
    (hw : 0 < scan.depth_width) (psv : ℝ) (hps : 0 ≤ psv) :
    (get_depth_sensor_plane scan tan depth (Fl.fin psv)).fon = true := by
  rw [get_depth_sensor_plane]
  rw [Fl.sqrt_fin_of_nonneg hps]
  have hW : ((scan.depth_width : ℝ)) ≠ 0 := by
    exact_mod_cast Nat.pos_iff_ne_zero.mp hw
  have hfin_u : ∀ uv : ℝ,
      (depth.div (Fl.cos (Fl.arctan (Fl.fin uv)))).fon = true := by
    intro uv
    rw [Fl.arctan_fin, Fl.cos_fin]
    refine Fl.fon_div_fin hd ?_
    rw [Real.cos_arctan]
    have h1 : (0 : ℝ) < Real.sqrt (1 + uv ^ 2) :=
      Real.sqrt_pos.mpr (by positivity)
    positivity
  cases tan with
  | nan =>
    rw [Fl.div_nan, Fl.nan_div, Fl.div_nan, Fl.arctan_nan, Fl.cos_nan,
      Fl.div_nan]
    rfl
  | inf => simp [Fl.fon] at htan
  | ninf => simp [Fl.fon] at htan
  | fin t =>
    by_cases ht : t = 0
    · subst ht
      rw [show (Fl.fin ((scan.depth_width : ℝ))).div (Fl.fin 0) = Fl.inf by
        rw [Fl.div]
        simp only [if_true]
        rw [if_neg hW, if_pos (by positivity : (0 : ℝ) < (scan.depth_width : ℝ))]]
      rw [show (Fl.inf.div (Fl.fin (2 : ℝ))) = Fl.inf by
        rw [Fl.div]
        norm_num]
      rw [show (Fl.fin (Real.sqrt psv)).div Fl.inf = Fl.fin 0 from rfl]
      exact hfin_u 0
    · rw [Fl.div_fin_fin_of_ne ht, Fl.div_fin_fin_of_ne (two_ne_zero)]
      have hfl : (scan.depth_width : ℝ) / t / 2 ≠ 0 := by
        intro h0
        apply hW
        field_simp at h0
        exact_mod_cast h0
      rw [Fl.div_fin_fin_of_ne hfl]
      exact hfin_u _

/-- Helper: the local back-projected point never has an infinite
coordinate for non-infinite tan and depth and a positive image width. -/
theorem fon_get_xyz (scan : Scan) (tan depth : Fl ℝ)
    (htan : tan.fon = true) (hd : depth.fon = true)
    (hw : 0 < scan.depth_width) (wv hv psv : ℝ) (hps : 0 ≤ psv) :
    (get_xyz scan tan (Fl.fin wv) (Fl.fin hv) depth (Fl.fin psv)).1.fon = true ∧
      (get_xyz scan tan (Fl.fin wv) (Fl.fin hv) depth (Fl.fin psv)).2.1.fon = true ∧
      (get_xyz scan tan (Fl.fin wv) (Fl.fin hv) depth (Fl.fin psv)).2.2.fon = true := by
  rw [get_xyz]
  cases tan with
  | nan =>
    simp only [Fl.mul_nan, Fl.nan_mul, Fl.add_nan, Fl.sqrt_nan, Fl.div_nan,
      Fl.mul_fin_fin]
    exact ⟨rfl, rfl, rfl⟩
  | inf => simp [Fl.fon] at htan
  | ninf => simp [Fl.fon] at htan
  | fin t =>
    simp only [Fl.mul_fin_fin, Fl.add_fin_fin]
    have hval : (0 : ℝ) <
        (scan.depth_width : ℝ) * (scan.depth_width : ℝ) + 4 * psv * t * t := by
      have h1 : (0 : ℝ) < (scan.depth_width : ℝ) := by exact_mod_cast hw
      nlinarith [mul_self_nonneg t, mul_nonneg hps (mul_self_nonneg t)]
    rw [Fl.sqrt_fin_of_nonneg (le_of_lt hval)]
    have hde : Real.sqrt ((scan.depth_width : ℝ) * (scan.depth_width : ℝ)
        + 4 * psv * t * t) ≠ 0 := ne_of_gt (Real.sqrt_pos.mpr hval)
    cases depth with
    | nan =>
      simp only [Fl.mul_nan, Fl.nan_mul, Fl.nan_div]
      exact ⟨rfl, rfl, rfl⟩
    | inf => simp [Fl.fon] at hd
    | ninf => simp [Fl.fon] at hd
    | fin dv =>
      simp only [Fl.mul_fin_fin]
      rw [Fl.div_fin_fin_of_ne hde, Fl.div_fin_fin_of_ne hde]
      exact ⟨Fl.fon_fin _, Fl.fon_fin _, Fl.fon_fin _⟩

/-- Helper: the pre-rotation point of any pixel has no infinite
coordinate, for a valid frame and a positive image width. -/
theorem fon_pixel_pre (scan : Scan) (frame : Frame) (i j : ℕ)
    (hw : 0 < scan.depth_width)
    (hp1 : scan.camera_initial_position.1.fon = true)
    (hp2 : scan.camera_initial_position.2.1.fon = true)
    (hp3 : scan.camera_initial_position.2.2.fon = true)
    (helev : scan.camera_view_elevation.fon = true)
    (hdep : frame.depths.all Fl.fon = true) :
    (pixel_pre scan frame i j).1.fon = true ∧
      (pixel_pre scan frame i j).2.1.fon = true ∧
      (pixel_pre scan frame i j).2.2.fon = true := by
  have hlook1 : (get_look scan).1.fon = true := by
    simp only [get_look, get_elev]
    exact Fl.fon_sub hp1 (Fl.fon_fin _)
  have hlook2 : (get_look scan).2.1.fon = true := by
    simp only [get_look, get_elev]
    exact Fl.fon_sub hp2 (Fl.fon_fin _)
  have hlook3 : (get_look scan).2.2.fon = true := by
    simp only [get_look, get_elev]
    exact Fl.fon_sub hp3 helev
  have hrot := fon_get_rot scan (get_look scan) hlook1 hlook2
  have htan : (get_tan scan).fon = true := by
    rw [get_tan]; exact Fl.fon_tan _
  have hdep0 : (pixel_depth scan frame i j).fon = true := by
    rw [pixel_depth]; exact fon_getD _ hdep _
  set wv : ℝ := (j : ℝ) - (scan.depth_width : ℝ) / 2 with hwv
  set hv : ℝ := (i : ℝ) - (scan.depth_height : ℝ) / 2 with hhv
  have hps : (0 : ℝ) ≤ wv * wv + hv * hv := by
    nlinarith [mul_self_nonneg wv, mul_self_nonneg hv]
  have hdepth : (if scan.sensor_plane_depth then
      get_depth_sensor_plane scan (get_tan scan) (pixel_depth scan frame i j)
        (Fl.fin (wv * wv + hv * hv))
      else pixel_depth scan frame i j).fon = true := by
    split
    · exact fon_depth_sensor scan _ _ htan hdep0 hw _ hps
    · exact hdep0
  have hxyz := fon_get_xyz scan (get_tan scan) _ htan hdepth hw wv hv _ hps
  have happ := fon_quat_apply (get_rot scan (get_look scan)) _
    hrot.1 hrot.2.1 hrot.2.2.1 hrot.2.2.2 hxyz.1 hxyz.2.1 hxyz.2.2
  simp only [pixel_pre, w_h_fin, get_proj_square, Fl.mul_fin_fin,
    Fl.add_fin_fin, v3_add, get_elev]
  exact ⟨Fl.fon_add (Fl.fon_add happ.1 hlook1) (Fl.fon_fin _),
    Fl.fon_add (Fl.fon_add happ.2.1 hlook2) (Fl.fon_fin _),
    Fl.fon_add (Fl.fon_add happ.2.2 hlook3) helev⟩

/-- Helper: a non-infinite value is a finite value or nan. -/
theorem Fl.fin_or_nan {a : Fl ℝ} (ha : a.fon = true) :
    (∃ v, a = Fl.fin v) ∨ a = Fl.nan := by
  cases a with
  | fin v => exact Or.inl ⟨v, rfl⟩
  | nan => exact Or.inr rfl
  | inf => simp [Fl.fon] at ha
  | ninf => simp [Fl.fon] at ha

/-- Helper: the z-rotation quaternion of a non-finite angle is
`(0, 0, nan, nan)` (sin/cos of nan or ±inf are nan). -/
theorem rotation_from_euler_z_nonfin (θ : Fl ℝ) (h : θ.is_fin = false) :
    rotation_from_euler_z θ = (Fl.fin 0, Fl.fin 0, Fl.nan, Fl.nan) := by
  cases θ with
  | fin t => simp [Fl.is_fin] at h
  | nan => rw [rotation_from_euler_z, Fl.nan_div]; rfl
  | inf =>
    rw [rotation_from_euler_z]
    rw [show Fl.inf.div (Fl.fin (2 : ℝ)) = Fl.inf by
      rw [Fl.div]; norm_num]
    rfl
  | ninf =>
    rw [rotation_from_euler_z]
    rw [show Fl.ninf.div (Fl.fin (2 : ℝ)) = Fl.ninf by
      rw [Fl.div]; norm_num]
    rfl

/-- Helper: the z-rotation quaternion of a finite angle. -/
theorem rotation_from_euler_z_fin (a : ℝ) :
    rotation_from_euler_z (Fl.fin a) =
      (Fl.fin 0, Fl.fin 0, Fl.fin (Real.sin (a / 2)),
        Fl.fin (Real.cos (a / 2))) := by
  rw [rotation_from_euler_z, Fl.div_fin_fin_of_ne two_ne_zero, Fl.sin_fin,
    Fl.cos_fin]

/-- Helper: applying the z-rotation by a finite angle to a finite vector
rotates the xy components by the (double) angle and preserves z. -/
theorem quat_apply_euler_fin (a q1 q2 q3 : ℝ) :
    quat_apply (rotation_from_euler_z (Fl.fin a))
        (Fl.fin q1, Fl.fin q2, Fl.fin q3) =
      (Fl.fin (Real.cos a * q1 - Real.sin a * q2),
       Fl.fin (Real.sin a * q1 + Real.cos a * q2), Fl.fin q3) := by
  have hp := Real.sin_sq_add_cos_sq (a / 2)
  have hc : Real.cos a = Real.cos (a / 2) ^ 2 - Real.sin (a / 2) ^ 2 := by
    have h2 := Real.cos_two_mul (a / 2)
    rw [show 2 * (a / 2) = a by ring] at h2
    linarith
  have hs : Real.sin a = 2 * Real.sin (a / 2) * Real.cos (a / 2) := by
    have h2 := Real.sin_two_mul (a / 2)
    rw [show 2 * (a / 2) = a by ring] at h2
    exact h2
  rw [rotation_from_euler_z_fin]
  simp only [quat_apply, quat_to_matrix, mat_apply, Fl.mul_fin_fin,
    Fl.add_fin_fin, Fl.sub_fin_fin, Fl.neg_fin, Prod.mk.injEq, Fl.fin.injEq]
  refine ⟨?_, ?_, ?_⟩
  · rw [hc, hs]; ring
  · rw [hc, hs]; ring
  · linear_combination q3 * hp

/-- Helper: applying the z-rotation by a finite angle to a vector with a
nan coordinate gives the all-nan vector. -/
theorem quat_apply_euler_nan (a : ℝ) (q : V3 ℝ)
    (h : q.1 = Fl.nan ∨ q.2.1 = Fl.nan ∨ q.2.2 = Fl.nan) :
    quat_apply (rotation_from_euler_z (Fl.fin a)) q =
      (Fl.nan, Fl.nan, Fl.nan) := by
  obtain ⟨q1, q2, q3⟩ := q
  rw [rotation_from_euler_z_fin]
  simp only [quat_apply, quat_to_matrix, mat_apply, Fl.mul_fin_fin,
    Fl.add_fin_fin, Fl.sub_fin_fin, Fl.neg_fin]
  rcases h with h | h | h <;> subst h <;>
    simp [Fl.mul_nan, Fl.nan_add, Fl.add_nan]

/-- Helper: the mask decision on the time-rotated image of a vector with
no infinite coordinate depends on the rotation angle only through its
finiteness: a finite angle rotates about z (preserving the z coordinate
and the xy norm by sin² + cos² = 1), a non-finite angle yields the same
all-nan vector. -/
theorem point_mask_time_rot_eq (params : PointsCloudParams) (conf : Fl ℝ)
    (q : V3 ℝ) (h1 : q.1.fon = true) (h2 : q.2.1.fon = true)
    (h3 : q.2.2.fon = true) (θ θ' : Fl ℝ) (hf : θ.is_fin = θ'.is_fin) :
    point_mask params conf (quat_apply (rotation_from_euler_z θ) q) =
      point_mask params conf (quat_apply (rotation_from_euler_z θ') q) := by
  cases hfin : θ.is_fin with
  | false =>
    rw [rotation_from_euler_z_nonfin θ hfin,
      rotation_from_euler_z_nonfin θ' (by rw [← hf, hfin])]
  | true =>
    obtain ⟨a, rfl⟩ : ∃ a, θ = Fl.fin a := by
      cases θ with
      | fin a => exact ⟨a, rfl⟩
      | nan => simp [Fl.is_fin] at hfin
      | inf => simp [Fl.is_fin] at hfin
      | ninf => simp [Fl.is_fin] at hfin
    obtain ⟨a', rfl⟩ : ∃ a', θ' = Fl.fin a' := by
      rw [hfin] at hf
      cases θ' with
      | fin a => exact ⟨a, rfl⟩
      | nan => simp [Fl.is_fin] at hf
      | inf => simp [Fl.is_fin] at hf
      | ninf => simp [Fl.is_fin] at hf
    obtain ⟨x, y, z⟩ := q
    by_cases hnan : x = Fl.nan ∨ y = Fl.nan ∨ z = Fl.nan
    · rw [quat_apply_euler_nan a _ hnan, quat_apply_euler_nan a' _ hnan]
    · push_neg at hnan
      obtain ⟨hn1, hn2, hn3⟩ := hnan
      obtain ⟨v1, rfl⟩ := (Fl.fin_or_nan h1).resolve_right hn1
      obtain ⟨v2, rfl⟩ := (Fl.fin_or_nan h2).resolve_right hn2
      obtain ⟨v3, rfl⟩ := (Fl.fin_or_nan h3).resolve_right hn3
      rw [quat_apply_euler_fin, quat_apply_euler_fin]
      have hxy : ∀ b : ℝ,
          (Real.cos b * v1 - Real.sin b * v2) *
              (Real.cos b * v1 - Real.sin b * v2) +
            (Real.sin b * v1 + Real.cos b * v2) *
              (Real.sin b * v1 + Real.cos b * v2) = v1 * v1 + v2 * v2 :=
        fun b => by
          have hp := Real.sin_sq_add_cos_sq b
          linear_combination (v1 * v1 + v2 * v2) * hp
      simp only [point_mask, Fl.sq_fin, Fl.add_fin_fin, hxy]

/-- Helper: a finite value exists under every `is_fin` witness. -/
theorem Fl.exists_of_is_fin {a : Fl ℝ} (h : a.is_fin = true) :
    ∃ v, a = Fl.fin v := by
  cases a with
  | fin v => exact ⟨v, rfl⟩
  | nan => simp [Fl.is_fin] at h
  | inf => simp [Fl.is_fin] at h
  | ninf => simp [Fl.is_fin] at h

/-- Helper: multiplying by a finite factor on the left preserves (exactly)
the finiteness bit of the other factor. -/
theorem Fl.mul_fin_is_fin (a : ℝ) (w : Fl ℝ) :
    ((Fl.fin a).mul w).is_fin = w.is_fin := by
  cases w with
  | fin y => rfl
  | nan => rfl
  | inf => rw [Fl.mul]; split_ifs <;> rfl
  | ninf => rw [Fl.mul]; split_ifs <;> rfl

/-- Helper: the time rotation is the z-rotation by
`(time − time_base) / 1e9 * angular_velocity`. -/
theorem time_rot_theta (scan : Scan) (frame : Frame) (tb : Fl ℝ) :
    get_time_rot scan frame tb =
      rotation_from_euler_z (((frame.time.sub tb).div
        (Fl.fin 1000000000)).mul scan.camera_angular_velocity) := rfl

/-- Helper: with a finite frame time, the finiteness of the time-rotation
angle does not depend on which finite time base is used. -/
theorem theta_is_fin_eq (scan : Scan) (frame : Frame) (tb tb' : Fl ℝ)
    (ht : frame.time.is_fin = true) (htb : tb.is_fin = true)
    (htb' : tb'.is_fin = true) :
    (((frame.time.sub tb).div (Fl.fin 1000000000)).mul
        scan.camera_angular_velocity).is_fin =
      (((frame.time.sub tb').div (Fl.fin 1000000000)).mul
        scan.camera_angular_velocity).is_fin := by
  obtain ⟨ft, hft⟩ := Fl.exists_of_is_fin ht
  obtain ⟨b, rfl⟩ := Fl.exists_of_is_fin htb
  obtain ⟨b', rfl⟩ := Fl.exists_of_is_fin htb'
  rw [hft, Fl.sub_fin_fin, Fl.sub_fin_fin,
    Fl.div_fin_fin_of_ne (by norm_num : (1000000000 : ℝ) ≠ 0),
    Fl.div_fin_fin_of_ne (by norm_num : (1000000000 : ℝ) ≠ 0),
    Fl.mul_fin_is_fin, Fl.mul_fin_is_fin]

/-- Helper: decomposition of `frame_valid` into its six conjuncts. -/
theorem frame_valid_parts {scans : String → Scan} {f : Frame}
    (h : frame_valid scans f = true) :
    f.time.is_fin = true ∧
      (scans f.scan).camera_initial_position.1.fon = true ∧
      (scans f.scan).camera_initial_position.2.1.fon = true ∧
      (scans f.scan).camera_initial_position.2.2.fon = true ∧
      (scans f.scan).camera_view_elevation.fon = true ∧
      f.depths.all Fl.fon = true := by
  simp only [frame_valid, Bool.and_eq_true] at h
  exact ⟨h.1.1.1.1.1, h.1.1.1.1.2, h.1.1.1.2, h.1.1.2, h.1.2, h.2⟩

/-- Helper: the mask decision of a pixel of a valid frame is the same
under every finite time base. -/
theorem pixel_keep_tb_eq (params : PointsCloudParams) (scans : String → Scan)
    (frame : Frame) (tb tb' : Fl ℝ) (i j : ℕ)
    (hw : 0 < (scans frame.scan).depth_width)
    (htb : tb.is_fin = true) (htb' : tb'.is_fin = true)
    (hv : frame_valid scans frame = true) :
    pixel_keep params (scans frame.scan) frame tb i j =
      pixel_keep params (scans frame.scan) frame tb' i j := by
  obtain ⟨ht, hp1, hp2, hp3, helev, hdep⟩ := frame_valid_parts hv
  have hq := fon_pixel_pre (scans frame.scan) frame i j hw hp1 hp2 hp3
    helev hdep
  rw [pixel_keep, pixel_keep, pixel_point, pixel_point, time_rot_theta,
    time_rot_theta]
  exact point_mask_time_rot_eq params _ _ hq.1 hq.2.1 hq.2.2 _ _
    (theta_is_fin_eq (scans frame.scan) frame tb tb' ht htb htb')

/-- Helper: the number of surviving points of a valid frame is the same
under every finite time base. -/
theorem get_points_length_tb (params : PointsCloudParams)
    (scans : String → Scan) (frame : Frame) (tb tb' : Fl ℝ)
    (htb : tb.is_fin = true) (htb' : tb'.is_fin = true)
    (hv : frame_valid scans frame = true) :
    (get_points params (scans frame.scan) frame tb).length =
      (get_points params (scans frame.scan) frame tb').length := by
  rw [get_points, get_points, List.length_map, List.length_map]
  congr 1
  apply List.filter_congr
  intro ij hij
  simp only [pixel_indices, List.mem_flatMap, List.mem_map,
    List.mem_range] at hij
  obtain ⟨i, _, j, hj, rfl⟩ := hij
  exact pixel_keep_tb_eq params scans frame tb tb' i j
    (lt_of_le_of_lt (Nat.zero_le _) hj) htb htb' hv

/-- C6: for valid scans and frames (finite timestamps, no infinite
position / elevation / depth entries), the size of the reconstructed
points cloud is at most the total pixel count Σ width×height over the
frames, and that size is invariant under any permutation of the frame
sequence (even though the permutation changes the time base
`all_frames[0]['time']`). -/
theorem C6_size_bound_and_order_invariance (scans : String → Scan)
    (frames frames' : List Frame) (params : PointsCloudParams)
    (hperm : frames.Perm frames')
    (hvalid : ∀ f ∈ frames, frame_valid scans f = true) :
    cloud_size (build_points_cloud scans frames params) ≤
        total_pixel_count scans frames ∧
      cloud_size (build_points_cloud scans frames' params) =
        cloud_size (build_points_cloud scans frames params) := by
  constructor
  · cases frames with
    | nil => simp [build_points_cloud, cloud_size, total_pixel_count]
    | cons f0 rest =>
      simp only [build_points_cloud, cloud_size, Option.elim]
      rw [List.length_flatMap, total_pixel_count]
      apply List.sum_le_sum
      intro f hf
      simp only [Function.comp_apply, get_points, List.length_map]
      calc ((pixel_indices (scans f.scan)).filter fun ij =>
              pixel_keep params (scans f.scan) f f0.time ij.1 ij.2).length
          ≤ (pixel_indices (scans f.scan)).length :=
            List.length_filter_le _ _
        _ = (scans f.scan).depth_width * (scans f.scan).depth_height := by
            rw [pixel_indices, List.length_flatMap]
            simp only [Function.comp_def, List.length_map, List.length_range,
              List.map_const', List.sum_replicate, smul_eq_mul]
            exact Nat.mul_comm _ _
  · cases frames with
    | nil => rw [hperm.symm.eq_nil]
    | cons f0 rest =>
      cases frames' with
      | nil => exact absurd hperm.eq_nil (by simp)
      | cons f0' rest' =>
        have hvalid' : ∀ f ∈ f0' :: rest', frame_valid scans f = true :=
          fun f hf => hvalid f (hperm.mem_iff.mpr hf)
        have htb : f0.time.is_fin = true :=
          (frame_valid_parts (hvalid f0 (List.mem_cons_self f0 rest))).1
        have htb' : f0'.time.is_fin = true :=
          (frame_valid_parts (hvalid' f0' (List.mem_cons_self f0' rest'))).1
        simp only [build_points_cloud, cloud_size, Option.elim]
        rw [List.length_flatMap, List.length_flatMap]
        simp only [Function.comp_def]
        calc ((f0' :: rest').map fun f =>
                (get_points params (scans f.scan) f f0'.time).length).sum
            = ((f0' :: rest').map fun f =>
                (get_points params (scans f.scan) f f0.time).length).sum :=
              congrArg List.sum (List.map_congr_left fun f hf =>
                get_points_length_tb params scans f f0'.time f0.time
                  htb' htb (hvalid' f hf))
          _ = ((f0 :: rest).map fun f =>
                (get_points params (scans f.scan) f f0.time).length).sum :=
              (hperm.map _).sum_eq.symm

/-- Witness for C6 on a concrete valid two-frame input: swapping the two
frames (which changes the time base from 1 to 0) preserves the cloud
size, and the size is bounded by the 8 total pixels. -/
theorem C6_size_bound_and_order_invariance_witness :
    cloud_size (build_points_cloud scenario_scans
        [{ scenario_frame with time := Fl.fin 1 }, scenario_frame]
        default_params) ≤
      total_pixel_count scenario_scans
        [{ scenario_frame with time := Fl.fin 1 }, scenario_frame] ∧
    cloud_size (build_points_cloud scenario_scans
        [scenario_frame, { scenario_frame with time := Fl.fin 1 }]
        default_params) =
      cloud_size (build_points_cloud scenario_scans
        [{ scenario_frame with time := Fl.fin 1 }, scenario_frame]
        default_params) :=
  C6_size_bound_and_order_invariance scenario_scans
    [{ scenario_frame with time := Fl.fin 1 }, scenario_frame]
    [scenario_frame, { scenario_frame with time := Fl.fin 1 }]
    default_params
    (List.Perm.swap scenario_frame { scenario_frame with time := Fl.fin 1 } [])
    (by
      intro f hf
      simp only [List.mem_cons, List.not_mem_nil, or_false] at hf
      rcases hf with rfl | rfl <;> rfl)

end Reorder

end Tdscan
